import Mathlib

/-!
A shallow embedding of the object model and property-access core of the
Hermes JavaScript VM (`src/lib/VM/JSObject.cpp`), together with theorems
settling the specification claims about it.

Modelling conventions:
* Machine pointers become `Nat` identifiers; the object heap is a function
  `Nat → Option JSObject`; the `PropertyAccessor` cell heap is a function
  `Nat → AccessorCell`.
* The identifier table is an external collaborator, so property symbols are
  modelled by their array-index parse status: `SymbolID.idx i` is a symbol
  whose string spelling is the canonical decimal form of the uint32 array
  index `i`, `SymbolID.named s` is a string symbol whose spelling does not
  parse as an array index, and `SymbolID.sym n` is a JS Symbol primitive.
* Numbers are modelled exactly (`Nat`), so `isSameValue` coincides with
  structural equality; the NaN and signed-zero corner cases of doubles are
  not representable and no claim depends on them.
* Prototype-chain loops in the C++ become fuel-indexed recursions; theorems
  carry a hypothesis that the fuel suffices (true for every acyclic heap).
* Lazy-object initialization delegates to `Callable::defineLazyProperties`,
  which is outside this translation unit; the model assumes objects are
  already initialized and theorems restrict to `lazyObject = false`.
-/

set_option maxHeartbeats 1000000

namespace VMModel

/-- Property keys (`SymbolID`). The identifier table is external, so a symbol
is represented by whether its spelling parses as a uint32 array index. -/
inductive SymbolID where
  | idx (i : Nat)
  | named (s : String)
  | sym (n : Nat)
deriving DecidableEq, BEq, Repr

/-- `toArrayIndex` applied to the symbol's string spelling: canonical decimal
spellings (`SymbolID.idx`) parse, all other spellings do not. -/
def toArrayIndex : SymbolID → Option Nat
  | .idx i => some i
  | _ => none

/-- A symbol backed by a string (not a JS Symbol primitive). -/
def isPropertyNamePrimitive : SymbolID → Bool
  | .sym _ => false
  | _ => true

/-- A symbol backed by a JS Symbol primitive. -/
def isSymbolPrimitive : SymbolID → Bool
  | .sym _ => true
  | _ => false

/-- JS values as stored in property slots and produced by enumeration.
`empty` is the internal sentinel, `accessor cellId` is a pointer to a
`PropertyAccessor` cell, `str id` is the string primitive interned for the
symbol `id`. -/
inductive JSValue where
  | empty
  | undefined
  | null
  | boolean (b : Bool)
  | num (n : Nat)
  | str (id : SymbolID)
  | accessor (cellId : Nat)
deriving DecidableEq, BEq, Repr

/-- ECMAScript SameValue. Numbers are modelled exactly, so this is structural
equality (pointer equality on accessor cells, as in the C++). -/
def isSameValue (a b : JSValue) : Bool := a == b

/-- Per-property bit-packed attributes (`PropertyFlags`). -/
structure PropertyFlags where
  enumerable : Bool := false
  writable : Bool := false
  configurable : Bool := false
  accessor : Bool := false
  internalSetter : Bool := false
  hostObject : Bool := false
  staticBuiltin : Bool := false
  indexed : Bool := false
deriving DecidableEq, BEq, Repr

/-- Per-call attribute record for defineProperty (`DefinePropertyFlags`):
each of enumerable/writable/configurable has a paired "mentioned" bit. -/
structure DefinePropertyFlags where
  enumerable : Bool := false
  setEnumerable : Bool := false
  writable : Bool := false
  setWritable : Bool := false
  configurable : Bool := false
  setConfigurable : Bool := false
  setGetter : Bool := false
  setSetter : Bool := false
  setValue : Bool := false
  enableInternalSetter : Bool := false
deriving DecidableEq, BEq, Repr

/-- Modelled from the spec: a descriptor is an accessor descriptor when a
getter or setter is mentioned (`DefinePropertyFlags::isAccessor`, declared in
the header `JSObject.h`, which is not part of the sources). -/
def DefinePropertyFlags.isAccessor (d : DefinePropertyFlags) : Bool :=
  d.setGetter || d.setSetter

/-- Modelled from the spec: a descriptor is empty when no attribute is
mentioned (`DefinePropertyFlags::isEmpty`, declared in the missing header). -/
def DefinePropertyFlags.isEmpty (d : DefinePropertyFlags) : Bool :=
  !(d.setEnumerable || d.setWritable || d.setConfigurable || d.setGetter ||
    d.setSetter || d.setValue || d.enableInternalSetter)

/-- Modelled from the spec: the default flags for a new property created by a
plain put: enumerable, writable and configurable, with a value. -/
def DefinePropertyFlags.getDefaultNewPropertyFlags : DefinePropertyFlags :=
  { setEnumerable := true, enumerable := true, setWritable := true,
    writable := true, setConfigurable := true, configurable := true,
    setValue := true }

/-- Option flags on the mutating calls (`PropOpFlags`). -/
structure PropOpFlags where
  throwOnError : Bool := false
  mustExist : Bool := false
  internalForce : Bool := false
deriving DecidableEq, BEq, Repr

/-- Errors surfaced by the status-union returns of the core. `fatalError`
stands for paths that are out of the base-object core (subclass hooks). -/
inductive VMError where
  | typeError
  | referenceError
  | fatalError
deriving DecidableEq, BEq, Repr

/-- Result of the §8.12.9 update rule (`PropertyUpdateStatus`). -/
inductive PropertyUpdateStatus where
  | failed
  | done
  | needSet
deriving DecidableEq, BEq, Repr

/-- A `PropertyAccessor` heap cell: an optional getter callable and an
optional setter callable, identified by `Nat` ids (pointer identity). -/
structure AccessorCell where
  getter : Option Nat := none
  setter : Option Nat := none
deriving DecidableEq, BEq, Repr

/-- The heap of `PropertyAccessor` cells, keyed by cell id. -/
def AHeap : Type := Nat → AccessorCell

/-- Write one accessor cell. -/
def ahSet (ah : AHeap) (i : Nat) (c : AccessorCell) : AHeap :=
  fun j => if j = i then c else ah j

/-- `vmcast<PropertyAccessor>` of a slot value: dereference the cell pointer.
Only reached on values that are accessor cells. -/
def asAccessor (ah : AHeap) : JSValue → AccessorCell
  | .accessor i => ah i
  | _ => {}

/-- One hidden-class entry: symbol, slot index and flags. -/
structure ClassEntry where
  name : SymbolID
  slot : Nat
  flags : PropertyFlags
deriving DecidableEq, BEq, Repr

/-- Modelled from the spec: the hidden class (an external collaborator, only
its interface is in the sources) maps symbols to slots and flags; `cid` is
the identity of the class cell (shape pointer), `entries` is the insertion
order reported by `forEachProperty`, `nextSlot` the next free slot index. -/
structure HiddenClass where
  cid : Nat
  entries : List ClassEntry
  nextSlot : Nat
deriving DecidableEq, BEq, Repr

/-- Modelled from the spec: symbol lookup in the hidden class. -/
def HiddenClass.findProperty (c : HiddenClass) (name : SymbolID) :
    Option ClassEntry :=
  c.entries.find? (fun e => e.name == name)

/-- Modelled from the spec: `HiddenClass::addProperty` appends an entry at a
fresh slot and returns the transitioned class together with the slot. -/
def HiddenClass.addProperty (c : HiddenClass) (name : SymbolID)
    (flags : PropertyFlags) : HiddenClass × Nat :=
  ({ cid := c.cid + 1,
     entries := c.entries ++ [⟨name, c.nextSlot, flags⟩],
     nextSlot := c.nextSlot + 1 }, c.nextSlot)

/-- Modelled from the spec: `HiddenClass::updateProperty` replaces the flags
of an existing entry, transitioning the class. -/
def HiddenClass.updateProperty (c : HiddenClass) (name : SymbolID)
    (newFlags : PropertyFlags) : HiddenClass :=
  { cid := c.cid + 1, nextSlot := c.nextSlot,
    entries := c.entries.map fun e =>
      if e.name == name then { e with flags := newFlags } else e }

/-- Modelled from the spec: `HiddenClass::deleteProperty`, the deletion
transition, removes the entry (slots are not reused). -/
def HiddenClass.deleteProperty (c : HiddenClass) (name : SymbolID) :
    HiddenClass :=
  { cid := c.cid + 1, nextSlot := c.nextSlot,
    entries := c.entries.filter fun e => e.name != name }

/-- Modelled from the spec: whether the class carries a named property whose
spelling parses as a uint32 array index. -/
def HiddenClass.getHasIndexLikeProperties (c : HiddenClass) : Bool :=
  c.entries.any fun e => (toArrayIndex e.name).isSome

/-- Modelled from the spec: number of named properties in the class. -/
def HiddenClass.getNumProperties (c : HiddenClass) : Nat :=
  c.entries.length

/-- Modelled from the spec: `HiddenClass::makeAllNonConfigurable` clears the
configurable bit of every entry (used by `seal`). -/
def HiddenClass.makeAllNonConfigurable (c : HiddenClass) : HiddenClass :=
  { cid := c.cid + 1, nextSlot := c.nextSlot,
    entries := c.entries.map fun e =>
      { e with flags := { e.flags with configurable := false } } }

/-- Modelled from the spec: `HiddenClass::makeAllReadOnly` clears both the
configurable and the writable bit of every entry (used by `freeze`). -/
def HiddenClass.makeAllReadOnly (c : HiddenClass) : HiddenClass :=
  { cid := c.cid + 1, nextSlot := c.nextSlot,
    entries := c.entries.map fun e =>
      { e with flags :=
          { e.flags with configurable := false, writable := false } } }

/-- The object flag byte, plus the external black-box "suitable for for-in
caching" predicate (`shouldCacheForIn`) modelled as the `cacheable` bit. -/
structure ObjectFlags where
  noExtend : Bool := false
  sealed : Bool := false
  frozen : Bool := false
  lazyObject : Bool := false
  hostObject : Bool := false
  indexedStorage : Bool := false
  fastIndexProperties : Bool := false
  cacheable : Bool := true
  objectID : Nat := 0
deriving DecidableEq, BEq, Repr

/-- One present slot of the indexed (array-like) storage of a subclass that
overrides the indexed-storage virtual interface. -/
structure IndexedEntry where
  idx : Nat
  flags : PropertyFlags
  value : JSValue
deriving DecidableEq, BEq, Repr

/-- The object cell. `slots` is the uniform direct+indirect slot storage
(slot `i` is `slots[i]`); `indexedBound`/`indexed` model the subclass
indexed-storage interface (`ownIndexedRange` is `[0, indexedBound)`);
`hostNames` models the host-object `getHostPropertyNames` callback. -/
structure JSObject where
  parent : Option Nat := none
  clazz : HiddenClass
  slots : List JSValue := []
  flags : ObjectFlags := {}
  indexedBound : Nat := 0
  indexed : List IndexedEntry := []
  hostNames : List SymbolID := []
deriving DecidableEq, BEq, Repr

/-- Modelled from the spec: an object is extensible unless `noExtend`. -/
def JSObject.isExtensible (o : JSObject) : Bool := !o.flags.noExtend

/-- Named own lookup through the hidden class (`findProperty`). -/
def findProperty (o : JSObject) (name : SymbolID) : Option ClassEntry :=
  o.clazz.findProperty name

/-- Read a named slot (`getNamedSlotValue`). -/
def getNamedSlotValue (o : JSObject) (slot : Nat) : JSValue :=
  o.slots.getD slot .empty

/-- Functional model of a slot write into the direct/indirect storage,
padding with the empty sentinel if the vector must grow
(`allocateNewSlotStorage` places a new slot at the end). -/
def listSetPad (l : List JSValue) (i : Nat) (v : JSValue) : List JSValue :=
  (l ++ List.replicate (i + 1 - l.length) JSValue.empty).set i v

/-- Write a named slot (`setNamedSlotValue`). -/
def setNamedSlotValue (o : JSObject) (slot : Nat) (v : JSValue) : JSObject :=
  { o with slots := listSetPad o.slots slot v }

/-- Modelled from the spec (§4.6 virtual interface):
`getOwnIndexedPropertyFlags` consults the subclass indexed storage; the base
implementation reports absent. -/
def getOwnIndexedPropertyFlags (o : JSObject) (i : Nat) :
    Option PropertyFlags :=
  if o.flags.indexedStorage then
    (o.indexed.find? (fun e => e.idx == i)).map (fun e => e.flags)
  else none

/-- Modelled from the spec (§4.6): `haveOwnIndexed`. -/
def haveOwnIndexed (o : JSObject) (i : Nat) : Bool :=
  if o.flags.indexedStorage then
    (o.indexed.find? (fun e => e.idx == i)).isSome
  else false

/-- Modelled from the spec (§4.6): `getOwnIndexed`, empty when absent. -/
def getOwnIndexed (o : JSObject) (i : Nat) : JSValue :=
  if o.flags.indexedStorage then
    match o.indexed.find? (fun e => e.idx == i) with
    | some e => e.value
    | none => .empty
  else .empty

/-- The end of `ownIndexedRange` (the base implementation returns the empty
range `[0, 0)`). -/
def ownIndexedRangeEnd (o : JSObject) : Nat :=
  if o.flags.indexedStorage then o.indexedBound else 0

/-- The rejection outcome of the update rule: raise `TypeError` when
`throwOnError` is set, otherwise report `failed` with zeroed flags. -/
def cpuFail (ah : AHeap) (throwOnError : Bool) :
    Except VMError (PropertyUpdateStatus × PropertyFlags × AHeap) :=
  if throwOnError then .error .typeError else .ok (.failed, {}, ah)

/-- Step 8.12.9 [12] of the update rule: merge the mentioned attribute bits
into the flags computed so far and decide between `done` and `needSet`. -/
def cpuFinish (ah : AHeap) (dpFlags : DefinePropertyFlags)
    (newFlags0 : PropertyFlags) :
    Except VMError (PropertyUpdateStatus × PropertyFlags × AHeap) :=
  let nf : PropertyFlags :=
    { newFlags0 with
      enumerable :=
        if dpFlags.setEnumerable then dpFlags.enumerable
        else newFlags0.enumerable,
      writable :=
        if dpFlags.setWritable then dpFlags.writable else newFlags0.writable,
      configurable :=
        if dpFlags.setConfigurable then dpFlags.configurable
        else newFlags0.configurable }
  if dpFlags.setValue then .ok (.needSet, { nf with accessor := false }, ah)
  else if dpFlags.isAccessor then
    .ok (.needSet, { nf with accessor := true }, ah)
  else .ok (.done, nf, ah)

/-- The ECMAScript §8.12.9 attribute-update state machine
(`JSObject::checkPropertyUpdate`). Returns the update status, the resulting
flags, and the accessor heap (step [11] copies the unmentioned halves of the
current accessor into the supplied accessor cell). -/
def checkPropertyUpdate (ah : AHeap) (currentFlags : PropertyFlags)
    (dpFlags : DefinePropertyFlags)
    (curValueOrAccessor valueOrAccessor : JSValue) (throwOnError : Bool) :
    Except VMError (PropertyUpdateStatus × PropertyFlags × AHeap) :=
  -- 8.12.9 [5]: every field absent.
  if dpFlags.isEmpty then .ok (.done, currentFlags, ah)
  else
  -- 8.12.9 [6]: every mentioned field matches under SameValue.
  let attrsMatch :=
    (!dpFlags.setEnumerable ||
      dpFlags.enumerable == currentFlags.enumerable) &&
    (!dpFlags.setWritable || dpFlags.writable == currentFlags.writable) &&
    (!dpFlags.setConfigurable ||
      dpFlags.configurable == currentFlags.configurable)
  let step6done :=
    attrsMatch &&
    (if dpFlags.isAccessor then
      currentFlags.accessor &&
        (let curA := asAccessor ah curValueOrAccessor
         let newA := asAccessor ah valueOrAccessor
         (!dpFlags.setGetter || curA.getter == newA.getter) &&
         (!dpFlags.setSetter || curA.setter == newA.setter))
     else if dpFlags.setValue then
      isSameValue curValueOrAccessor valueOrAccessor
     else true)
  if step6done then .ok (.done, currentFlags, ah)
  else
  -- 8.12.9 [7]: a non-configurable property restricts some changes.
  if !currentFlags.configurable && dpFlags.configurable then
    cpuFail ah throwOnError
  else if !currentFlags.configurable && dpFlags.setEnumerable &&
      dpFlags.enumerable != currentFlags.enumerable then
    cpuFail ah throwOnError
  else
  let newFlags := currentFlags
  -- 8.12.9 [8]: generic descriptor, no further validation.
  if !(dpFlags.setValue || dpFlags.setWritable || dpFlags.setGetter ||
      dpFlags.setSetter) then
    cpuFinish ah dpFlags newFlags
  -- 8.12.9 [9]: changing between accessor and data descriptor.
  else if currentFlags.accessor != dpFlags.isAccessor then
    if !currentFlags.configurable then cpuFail ah throwOnError
    else cpuFinish ah dpFlags { newFlags with writable := false }
  -- 8.12.9 [10]: both data descriptors.
  else if !currentFlags.accessor then
    if !currentFlags.configurable && !currentFlags.writable &&
        dpFlags.writable then
      cpuFail ah throwOnError
    else if !currentFlags.configurable && !currentFlags.writable &&
        dpFlags.setValue &&
        !isSameValue curValueOrAccessor valueOrAccessor then
      cpuFail ah throwOnError
    else cpuFinish ah dpFlags newFlags
  -- 8.12.9 [11]: both accessors.
  else
    let curA := asAccessor ah curValueOrAccessor
    let newA := asAccessor ah valueOrAccessor
    if !currentFlags.configurable &&
        ((dpFlags.setGetter && newA.getter != curA.getter) ||
         (dpFlags.setSetter && newA.setter != curA.setter)) then
      cpuFail ah throwOnError
    else
      -- Mutate the supplied accessor cell in place: an unmentioned half
      -- re-uses the current accessor's half.
      let merged : AccessorCell :=
        ⟨if dpFlags.setGetter then newA.getter else curA.getter,
         if dpFlags.setSetter then newA.setter else curA.setter⟩
      let ah' :=
        match valueOrAccessor with
        | .accessor nid => ahSet ah nid merged
        | _ => ah
      cpuFinish ah' dpFlags newFlags

/-- `JSObject::updateOwnProperty`: apply the update rule to an existing own
property, install the class transition if the flags changed, and perform the
slot write on `needSet`. The `internalSetter` dispatch targets subclass hooks
outside the base core and is modelled as a fatal error. -/
def updateOwnProperty (o : JSObject) (ah : AHeap) (name : SymbolID)
    (desc : ClassEntry) (dpFlags : DefinePropertyFlags)
    (valueOrAccessor : JSValue) (opFlags : PropOpFlags) :
    Except VMError (Bool × JSObject × AHeap) := do
  let (st, newFlags, ah') ←
    checkPropertyUpdate ah desc.flags dpFlags
      (getNamedSlotValue o desc.slot) valueOrAccessor opFlags.throwOnError
  if st = .failed then return (false, o, ah')
  let o :=
    if newFlags ≠ desc.flags then
      { o with clazz := o.clazz.updateProperty name newFlags }
    else o
  if st = .done then return (true, o, ah')
  if dpFlags.setValue then
    if !newFlags.internalSetter then
      return (true, setNamedSlotValue o desc.slot valueOrAccessor, ah')
    else
      throw .fatalError
  else if dpFlags.isAccessor then
    return (true, setNamedSlotValue o desc.slot valueOrAccessor, ah')
  else
    return (true, o, ah')

/-- The shared tail of `addOwnPropertyImpl` and `create(Runtime*, clazz)`:
clear `fastIndexProperties` when the class reports index-like named
properties. -/
def clearFastIfIndexLike (o : JSObject) : JSObject :=
  if o.clazz.getHasIndexLikeProperties then
    { o with flags := { o.flags with fastIndexProperties := false } }
  else o

/-- `JSObject::addOwnPropertyImpl`: ask the class for a new slot, store the
value there, and clear `fastIndexProperties` if the class now reports
index-like named properties. -/
def addOwnPropertyImpl (o : JSObject) (name : SymbolID)
    (propertyFlags : PropertyFlags) (valueOrAccessor : JSValue) : JSObject :=
  let r := o.clazz.addProperty name propertyFlags
  clearFastIfIndexLike
    { o with clazz := r.1, slots := listSetPad o.slots r.2 valueOrAccessor }

/-- `JSObject::addOwnProperty`: refuse when not extensible (unless forced),
build the new property's flags from the mentioned attributes, and add. -/
def addOwnProperty (o : JSObject) (ah : AHeap) (name : SymbolID)
    (dpFlags0 : DefinePropertyFlags) (valueOrAccessor : JSValue)
    (opFlags : PropOpFlags) : Except VMError (Bool × JSObject × AHeap) :=
  if !o.isExtensible && !opFlags.internalForce then
    if opFlags.throwOnError then .error .typeError else .ok (false, o, ah)
  else
    -- Accessors don't set writable.
    let dpFlags :=
      if dpFlags0.isAccessor then { dpFlags0 with setWritable := false }
      else dpFlags0
    let flags : PropertyFlags :=
      { accessor := dpFlags0.isAccessor,
        enumerable := dpFlags.setEnumerable && dpFlags.enumerable,
        writable := dpFlags.setWritable && dpFlags.writable,
        configurable := dpFlags.setConfigurable && dpFlags.configurable,
        internalSetter := dpFlags0.enableInternalSetter }
    .ok (true, addOwnPropertyImpl o name flags valueOrAccessor, ah)

/-- `JSObject::defineOwnProperty` (named): update an existing own property,
else add. (The lazy-initialization retry delegates to code outside this
translation unit; the model assumes initialized objects.) -/
def defineOwnProperty (o : JSObject) (ah : AHeap) (name : SymbolID)
    (dpFlags : DefinePropertyFlags) (valueOrAccessor : JSValue)
    (opFlags : PropOpFlags) : Except VMError (Bool × JSObject × AHeap) :=
  match findProperty o name with
  | some desc =>
    updateOwnProperty o ah name desc dpFlags valueOrAccessor opFlags
  | none => addOwnProperty o ah name dpFlags valueOrAccessor opFlags

/-- `JSObject::deleteNamed`: own-only deletion. Missing property succeeds;
a non-configurable property fails per `throwOnError`; otherwise the slot is
overwritten with the empty sentinel and the deletion transition installed. -/
def deleteNamed (o : JSObject) (name : SymbolID) (opFlags : PropOpFlags) :
    Except VMError (Bool × JSObject) :=
  match findProperty o name with
  | none => .ok (true, o)
  | some desc =>
    if !desc.flags.configurable then
      if opFlags.throwOnError then .error .typeError else .ok (false, o)
    else
      let o := setNamedSlotValue o desc.slot .empty
      let o := { o with clazz := o.clazz.deleteProperty name }
      .ok (true, o)

/-- `JSObject::preventExtensions`: set `noExtend`. -/
def preventExtensions (o : JSObject) : JSObject :=
  { o with flags := { o.flags with noExtend := true } }

/-- `JSObject::seal`: idempotent; transition the class to all
non-configurable and set `sealed` and `noExtend`. -/
def seal' (o : JSObject) : JSObject :=
  if o.flags.sealed then o
  else
    { o with
      clazz := o.clazz.makeAllNonConfigurable,
      flags := { o.flags with sealed := true, noExtend := true } }

/-- `JSObject::freeze`: idempotent; transition the class to all read-only
and set `frozen`, `sealed` and `noExtend`. -/
def freeze (o : JSObject) : JSObject :=
  if o.flags.frozen then o
  else
    { o with
      clazz := o.clazz.makeAllReadOnly,
      flags :=
        { o.flags with frozen := true, sealed := true, noExtend := true } }

/-- `JSObject::create(Runtime*, Handle<HiddenClass>)`: a fresh object on the
given prototype with the given class; `fastIndexProperties` starts true and
is cleared when the class reports index-like named properties. -/
def createWithClass (proto : Option Nat) (c : HiddenClass) : JSObject :=
  clearFastIfIndexLike
    { parent := proto, clazz := c,
      slots := List.replicate c.nextSlot .empty,
      flags := { fastIndexProperties := true } }

/-- The data-property fast path of `JSObject::getNamed_RJS` restricted to an
own property: return the slot value of a non-accessor own property. -/
def getNamedData (o : JSObject) (name : SymbolID) : Option JSValue :=
  match findProperty o name with
  | some e => if e.flags.accessor then none else some (getNamedSlotValue o e.slot)
  | none => none

/-- The object heap: identifiers to object cells. -/
def Heap : Type := Nat → Option JSObject

/-- Write one object cell. -/
def hUpdate (h : Heap) (i : Nat) (o : JSObject) : Heap :=
  fun j => if j = i then some o else h j

/-- The cycle-check loop of `JSObject::setParent` (ES6 9.1.2 steps 6-8):
walk the parent chain from `cur`, true when it reaches `target`. Fuel bounds
the walk; a missing cell ends it. -/
def chainContains (h : Heap) : Nat → Option Nat → Nat → Bool
  | _, none, _ => false
  | 0, some _, _ => false
  | fuel + 1, some c, target =>
    if c = target then true
    else
      match h c with
      | none => false
      | some o => chainContains h fuel o.parent target

/-- The parent chain starting at `cur` reaches null (or a missing cell)
within `fuel` steps; every walk below is exact under this hypothesis. -/
def chainTerm (h : Heap) : Nat → Option Nat → Bool
  | _, none => true
  | 0, some _ => false
  | fuel + 1, some c =>
    match h c with
    | none => true
    | some o => chainTerm h fuel o.parent

/-- `JSObject::setParent` (ES6 9.1.2): succeed when the parent is unchanged;
else require extensibility; else reject a prototype cycle; else write the
parent field. -/
def setParent (h : Heap) (fuel : Nat) (oid : Nat) (parent : Option Nat) :
    Except VMError Heap :=
  match h oid with
  | none => throw .fatalError
  | some o =>
    if o.parent = parent then .ok h
    else if !o.isExtensible then throw .typeError
    else if chainContains h fuel parent oid then throw .typeError
    else .ok (hUpdate h oid { o with parent := parent })

/-- The prototype-walk of `JSObject::getNamedDescriptor`: own lookup at each
step; a host object that misses the class synthesizes a
`{hostObject, writable}` descriptor. Returns the owner and the entry. -/
def getNamedDescriptorLoop (h : Heap) :
    Nat → Option Nat → SymbolID → Option (Nat × ClassEntry)
  | _, none, _ => none
  | 0, some _, _ => none
  | fuel + 1, some c, name =>
    match h c with
    | none => none
    | some o =>
      match findProperty o name with
      | some e => some (c, e)
      | none =>
        if o.flags.hostObject then
          some (c, ⟨name, 0, { hostObject := true, writable := true }⟩)
        else getNamedDescriptorLoop h fuel o.parent name

/-- `JSObject::getNamedDescriptor`: resolve a named property along the
prototype chain starting at the receiver. -/
def getNamedDescriptor (h : Heap) (fuel : Nat) (oid : Nat) (name : SymbolID) :
    Option (Nat × ClassEntry) :=
  getNamedDescriptorLoop h (fuel + 1) (some oid) name

/-- `JSObject::hasNamed`: the descriptor resolution found an owner. -/
def hasNamed (h : Heap) (fuel : Nat) (oid : Nat) (name : SymbolID) : Bool :=
  (getNamedDescriptor h fuel oid name).isSome

/-- `JSObject::hasNamedOrIndexed`: with indexed storage and an index-like
spelling, check the own indexed storage first; absent that, an object with
`fastIndexProperties` answers false at once; otherwise fall through to the
named lookup. -/
def hasNamedOrIndexed (h : Heap) (fuel : Nat) (oid : Nat) (name : SymbolID) :
    Bool :=
  match h oid with
  | none => false
  | some o =>
    if o.flags.indexedStorage then
      match toArrayIndex name with
      | some i =>
        if haveOwnIndexed o i then true
        else if o.flags.fastIndexProperties then false
        else hasNamed h fuel oid name
      | none => hasNamed h fuel oid name
    else hasNamed h fuel oid name

/-- Claim-side reading: some object on the chain (receiver included) owns a
named (hidden-class) property called `name`. -/
def chainHasNamed (h : Heap) : Nat → Option Nat → SymbolID → Bool
  | _, none, _ => false
  | 0, some _, _ => false
  | fuel + 1, some c, name =>
    match h c with
    | none => false
    | some o =>
      (findProperty o name).isSome || chainHasNamed h fuel o.parent name

/-- Claim-side reading: some object on the chain (receiver included) has an
own indexed slot `i`. -/
def chainHasIndexed (h : Heap) : Nat → Option Nat → Nat → Bool
  | _, none, _ => false
  | 0, some _, _ => false
  | fuel + 1, some c, i =>
    match h c with
    | none => false
    | some o => haveOwnIndexed o i || chainHasIndexed h fuel o.parent i

/-- No object on the chain is a host object or is lazy (the claims about
chain lookups are stated for plain prototype chains). -/
def chainPlain (h : Heap) : Nat → Option Nat → Bool
  | _, none => true
  | 0, some _ => false
  | fuel + 1, some c =>
    match h c with
    | none => true
    | some o =>
      !o.flags.hostObject && !o.flags.lazyObject &&
        chainPlain h fuel o.parent

/-- The shared add-a-new-property tail of `JSObject::putNamed_RJS`: fail
under `mustExist`, else add an own property with the default new flags. -/
def putNamedAddPath (h : Heap) (ah : AHeap) (oid : Nat) (self : JSObject)
    (name : SymbolID) (value : JSValue) (opFlags : PropOpFlags) :
    Except VMError (Bool × Heap) :=
  if opFlags.mustExist then throw .referenceError
  else
    match addOwnProperty self ah name
        DefinePropertyFlags.getDefaultNewPropertyFlags value opFlags with
    | .error e => .error e
    | .ok (b, o', _) => .ok (b, hUpdate h oid o')

/-- `JSObject::putNamed_RJS`. External calls (a JS setter, the host-object
set callback) are modelled as returning normally without a heap effect; the
`internalSetter` hook targets array subclasses outside the base core and is
modelled as a fatal error. In release builds without the freeze-builtins
experiment, overriding a static builtin raises the descriptive TypeError. -/
def putNamed_RJS (h : Heap) (ah : AHeap) (fuel : Nat) (oid : Nat)
    (name : SymbolID) (value : JSValue) (opFlags : PropOpFlags) :
    Except VMError (Bool × Heap) :=
  match h oid with
  | none => throw .fatalError
  | some self =>
    match getNamedDescriptor h fuel oid name with
    | some (powner, desc) =>
      if desc.flags.accessor then
        match h powner with
        | none => throw .fatalError
        | some po =>
          if (asAccessor ah (getNamedSlotValue po desc.slot)).setter
              = none then
            if opFlags.throwOnError then throw .typeError
            else .ok (false, h)
          else .ok (true, h)
      else if !desc.flags.writable then
        if desc.flags.staticBuiltin then throw .typeError
        else if opFlags.throwOnError then throw .typeError
        else .ok (false, h)
      else if powner = oid then
        if !desc.flags.internalSetter && !desc.flags.hostObject then
          .ok (true, hUpdate h oid (setNamedSlotValue self desc.slot value))
        else if desc.flags.internalSetter then throw .fatalError
        else .ok (true, h)
      else putNamedAddPath h ah oid self name value opFlags
    | none => putNamedAddPath h ah oid self name value opFlags

/-- The indexed-properties loop of `JSObject::getOwnPropertyNames`: iterate
the own indexed range in ascending order, keeping the present (and, on
request, enumerable) slots. -/
def gopnIndexed (o : JSObject) (onlyEnumerable : Bool) : List Nat :=
  (List.range (ownIndexedRangeEnd o)).filter fun i =>
    match getOwnIndexedPropertyFlags o i with
    | none => false
    | some f => !(onlyEnumerable && !f.enumerable)

/-- Loop state of the named/host phases of `getOwnPropertyNames`: the output
entries after the indexed run, the stashed index-like names, and the
deduplication set (kept as a list; only membership is consulted). -/
structure GopnState where
  out : List JSValue
  indexNames : List Nat
  dedup : List SymbolID
deriving DecidableEq, BEq, Repr

/-- The `HiddenClass::forEachProperty` callback of `getOwnPropertyNames`:
skip JS Symbols, apply the enumerability filter, record the name for host
deduplication, and stash index-like names for the later merge. -/
def gopnNamedStep (onlyEnumerable : Bool) (hostCount : Nat) (st : GopnState)
    (e : ClassEntry) : GopnState :=
  if !isPropertyNamePrimitive e.name then st
  else if onlyEnumerable && !e.flags.enumerable then st
  else
    let st :=
      if hostCount > 0 then { st with dedup := st.dedup ++ [e.name] } else st
    match toArrayIndex e.name with
    | some i => { st with indexNames := st.indexNames ++ [i] }
    | none => { st with out := st.out ++ [.str e.name] }

/-- The host-symbols loop of `getOwnPropertyNames`: append host names that
are not duplicates of already-seen names, stashing index-like ones. -/
def gopnHostStep (st : GopnState) (id : SymbolID) : GopnState :=
  if st.dedup.contains id then st
  else
    let st := { st with dedup := st.dedup ++ [id] }
    match toArrayIndex id with
    | some i => { st with indexNames := st.indexNames ++ [i] }
    | none => { st with out := st.out ++ [.str id] }

/-- `HermesValue::getNumber` on an enumeration entry. -/
def jsNum : JSValue → Nat
  | .num n => n
  | _ => 0

/-- The shifting loop of `getOwnPropertyNames`: move the region
`[numIndexed, endNamed)` to `[numIndexed + k, endNamed + k)`, walking
backwards (`last` starts at `endNamed`, `toLast` at the new storage end). -/
def shiftLoop : List JSValue → Nat → Nat → Nat → List JSValue
  | arr, 0, _, _ => arr
  | arr, last + 1, toLast, numIndexed =>
    if last + 1 ≤ numIndexed then arr
    else
      shiftLoop (arr.set (toLast - 1) (arr.getD last .empty)) last
        (toLast - 1) numIndexed

/-- The backward merge loop of `getOwnPropertyNames`: fill `[0, toLast)`
with the larger of the last unconsumed real index and the last unconsumed
index-like name. -/
def mergeLoop : List JSValue → Nat → Nat → List Nat → Nat → List JSValue
  | arr, 0, _, _, _ => arr
  | arr, toLast + 1, numIndexed, indexNames, indexNamesLast =>
    if numIndexed ≠ 0 then
      let a := jsNum (arr.getD (numIndexed - 1) .empty)
      let b := indexNames.getD (indexNamesLast - 1) 0
      if indexNamesLast ≠ 0 && decide (b > a) then
        mergeLoop (arr.set toLast (.num b)) toLast numIndexed indexNames
          (indexNamesLast - 1)
      else
        mergeLoop (arr.set toLast (.num a)) toLast (numIndexed - 1)
          indexNames indexNamesLast
    else
      mergeLoop
        (arr.set toLast (.num (indexNames.getD (indexNamesLast - 1) 0)))
        toLast numIndexed indexNames (indexNamesLast - 1)

/-- `JSObject::getOwnPropertyNames`: indexed run, named properties in class
insertion order, host symbols deduplicated against the class; index-like
named properties are stashed, sorted (`std::sort`, modelled by insertion
sort) and merged into the leading index run by the shift and merge loops.
The model assumes an initialized (non-lazy) object. The named and host
phases are factored into `gopnSt2`. -/
def gopnSt2 (o : JSObject) (onlyEnumerable : Bool) : GopnState :=
  let hostCount := if o.flags.hostObject then o.hostNames.length else 0
  let st1 :=
    o.clazz.entries.foldl (gopnNamedStep onlyEnumerable hostCount) ⟨[], [], []⟩
  if o.flags.hostObject then o.hostNames.foldl gopnHostStep st1 else st1

/-- Spec-side reading of the merge loop: merge two descending-sorted lists,
taking the larger head first (ties favour the first list, matching the
`b > a` test of the merge loop). -/
def mergeRev : List Nat → List Nat → List Nat
  | [], I => I
  | a :: ra, [] => a :: mergeRev ra []
  | a :: ra, b :: rb =>
    if b > a then b :: mergeRev (a :: ra) rb
    else a :: mergeRev ra (b :: rb)
termination_by A I => A.length + I.length

/-- The assembly phase of `JSObject::getOwnPropertyNames`, on top of
`gopnSt2`. -/
def getOwnPropertyNames (o : JSObject) (onlyEnumerable : Bool) :
    List JSValue :=
  let indexRun := gopnIndexed o onlyEnumerable
  let numIndexed := indexRun.length
  let st2 := gopnSt2 o onlyEnumerable
  let arr1 : List JSValue := indexRun.map JSValue.num ++ st2.out
  let endNamed := arr1.length
  if st2.indexNames.isEmpty then arr1
  else
    let sortedIdx := st2.indexNames.insertionSort (· ≤ ·)
    let k := sortedIdx.length
    let arr2 := arr1 ++ List.replicate k JSValue.empty
    let arr3 := shiftLoop arr2 endNamed (endNamed + k) numIndexed
    mergeLoop arr3 (numIndexed + k) numIndexed sortedIdx k

/-- Spec-side reading of the named phase: the index-like names contributed
by the class entries `l`, in insertion order. -/
def entsIndexNames (onlyEnumerable : Bool) (l : List ClassEntry) : List Nat :=
  l.filterMap fun e =>
    if !isPropertyNamePrimitive e.name then none
    else if onlyEnumerable && !e.flags.enumerable then none
    else toArrayIndex e.name

/-- Spec-side reading of the named phase: the non-index string entries
contributed by the class entries `l`, in insertion order. -/
def entsNamedStrs (onlyEnumerable : Bool) (l : List ClassEntry) :
    List JSValue :=
  l.filterMap fun e =>
    if !isPropertyNamePrimitive e.name then none
    else if onlyEnumerable && !e.flags.enumerable then none
    else
      match toArrayIndex e.name with
      | some _ => none
      | none => some (.str e.name)

/-- Spec-side reading of the named phase: the names recorded for host
deduplication (every surviving symbol, index-like or not). -/
def entsDedup (onlyEnumerable : Bool) (l : List ClassEntry) : List SymbolID :=
  l.filterMap fun e =>
    if !isPropertyNamePrimitive e.name then none
    else if onlyEnumerable && !e.flags.enumerable then none
    else some e.name

/-- Spec-side reading of the host phase: the host symbols surviving
deduplication against `dedup` and against the earlier host symbols. -/
def hostSurvivors (dedup : List SymbolID) : List SymbolID → List SymbolID
  | [] => []
  | id :: rest =>
    if dedup.contains id then hostSurvivors dedup rest
    else id :: hostSurvivors (dedup ++ [id]) rest

/-- The non-index string entry for a symbol, if any. -/
def strOfNonIdx (id : SymbolID) : Option JSValue :=
  match toArrayIndex id with
  | some _ => none
  | none => some (.str id)

/-- The host symbols of `o` surviving deduplication (empty unless `o` is a
host object). -/
def hostKept (o : JSObject) (onlyEnumerable : Bool) : List SymbolID :=
  if o.flags.hostObject then
    hostSurvivors (entsDedup onlyEnumerable o.clazz.entries) o.hostNames
  else []

/-- An entry of the for-in big-storage array: a prototype's hidden class
(compared by pointer, here by `cid`), the null terminator of the class
prefix, or a collected property name. -/
inductive CacheEnt where
  | cls (cid : Nat)
  | nul
  | prop (v : JSValue)
deriving DecidableEq, BEq, Repr

/-- The duplicate test of `appendAllPropertyNames`: number and string names
are compared under uint32 array-index parsing (`val` is an entry already in
the array, `prop` the candidate). -/
def dupMatch (val : CacheEnt) (prop : JSValue) : Bool :=
  match prop with
  | .num p =>
    match val with
    | .prop (.num n) => n == p
    | .prop (.str vid) => toArrayIndex vid == some p
    | _ => false
  | .str pid =>
    match val with
    | .prop (.num n) => toArrayIndex pid == some n
    | .prop (.str vid) => vid == pid
    | _ => false
  | _ => false

/-- The inner loop of `appendAllPropertyNames`: push each enumerable own
name of one object, skipping duplicates of entries at positions
`≥ beginIndex` once `needDedup` is set. -/
def appendOneObjectNames (arr : List CacheEnt) (names : List JSValue)
    (needDedup : Bool) (beginIndex : Nat) : List CacheEnt :=
  names.foldl
    (fun acc prop =>
      if !needDedup then acc ++ [.prop prop]
      else if (acc.drop beginIndex).any (fun v => dupMatch v prop) then acc
      else acc ++ [.prop prop])
    arr

/-- `appendAllPropertyNames`: walk the prototype chain, appending each
object's enumerable own names (`getOwnPropertyNames(_, true)`), with
deduplication once past the first object. `none` on fuel exhaustion. -/
def appendAllPropertyNames (h : Heap) :
    Nat → Option Nat → List CacheEnt → Bool → Nat → Option (List CacheEnt)
  | _, none, arr, _, _ => some arr
  | 0, some _, _, _, _ => none
  | fuel + 1, some oid, arr, needDedup, beginIndex =>
    match h oid with
    | none => none
    | some o =>
      let names := getOwnPropertyNames o true
      appendAllPropertyNames h fuel o.parent
        (appendOneObjectNames arr names needDedup beginIndex) true beginIndex

/-- The prototype walk of `setProtoClasses`: push each prototype's class,
clearing the array when any prototype is unsuitable for caching; terminate
with null. -/
def setProtoLoop (h : Heap) :
    Nat → Option Nat → List CacheEnt → Option (List CacheEnt)
  | _, none, arr => some (arr ++ [.nul])
  | 0, some _, _ => none
  | fuel + 1, some c, arr =>
    match h c with
    | none => none
    | some o =>
      if !o.flags.cacheable then some []
      else setProtoLoop h fuel o.parent (arr ++ [.cls o.clazz.cid])

/-- `setProtoClasses`: record the prototype-chain shapes, or clear the array
when the receiver or any prototype is unsuitable for caching. -/
def setProtoClasses (h : Heap) (fuel : Nat) (oid : Nat) :
    Option (List CacheEnt) :=
  match h oid with
  | none => none
  | some o =>
    if !o.flags.cacheable then some [] else setProtoLoop h fuel o.parent []

/-- `matchesProtoClasses`: verify the recorded class prefix against the
current prototype chain; the index after the terminating null on success,
otherwise 0. -/
def matchesProtoLoop (h : Heap) :
    Nat → Option Nat → List CacheEnt → Nat → Nat
  | _, none, arr, i => if arr.getD i (.prop .empty) = .nul then i + 1 else 0
  | 0, some _, _, _ => 0
  | fuel + 1, some c, arr, i =>
    match h c with
    | none => 0
    | some o =>
      if arr.getD i (.prop .empty) = .cls o.clazz.cid then
        matchesProtoLoop h fuel o.parent arr (i + 1)
      else 0

/-- `matchesProtoClasses` from the receiver: start at its parent. -/
def matchesProtoClasses (h : Heap) (fuel : Nat) (oid : Nat)
    (arr : List CacheEnt) : Nat :=
  match h oid with
  | none => 0
  | some o => matchesProtoLoop h fuel o.parent arr 0

/-- The runtime state seen by `getForInPropertyNames`: the object heap and
the for-in caches hanging off hidden classes (keyed by class `cid`, since
`HiddenClass::getForInCache` reads a field of the class cell). -/
structure ForInState where
  heap : Heap
  caches : Nat → Option (List CacheEnt)

/-- Replace one class's for-in cache. -/
def cachesSet (f : Nat → Option (List CacheEnt)) (cid : Nat)
    (v : Option (List CacheEnt)) : Nat → Option (List CacheEnt) :=
  fun j => if j = cid then v else f j

/-- The slow path of `getForInPropertyNames`: build the array of prototype
classes and property names, and install it as the cache of the receiver's
class when every prototype is cacheable and the array is not dominated by
prototype data (`end/4 > ownPropEstimate` vetoes). -/
def forInBuild (s : ForInState) (fuel : Nat) (oid : Nat) (o : JSObject) :
    Option (ForInState × List CacheEnt × Nat × Nat) :=
  match setProtoClasses s.heap fuel oid with
  | none => none
  | some protoArr =>
    let beginIndex := protoArr.length
    let canCache := beginIndex ≠ 0
    match appendAllPropertyNames s.heap fuel (some oid) protoArr false
        beginIndex with
    | none => none
    | some arr =>
      let endIndex := arr.length
      let ownPropEstimate := o.clazz.getNumProperties
      let tooMuchProto := endIndex / 4 > ownPropEstimate
      let s' :=
        if canCache && !tooMuchProto then
          { s with caches := cachesSet s.caches o.clazz.cid (some arr) }
        else s
      some (s', arr, beginIndex, endIndex)

/-- `getForInPropertyNames`: return the cached array when the recorded
prototype shapes still match; on mismatch clear the cache and rebuild; on a
cold class just build (and possibly install). -/
def getForInPropertyNames (s : ForInState) (fuel : Nat) (oid : Nat) :
    Option (ForInState × List CacheEnt × Nat × Nat) :=
  match s.heap oid with
  | none => none
  | some o =>
    match s.caches o.clazz.cid with
    | some arr =>
      let beginIndex := matchesProtoClasses s.heap fuel oid arr
      if beginIndex ≠ 0 then some (s, arr, beginIndex, arr.length)
      else
        forInBuild { s with caches := cachesSet s.caches o.clazz.cid none }
          fuel oid o
    | none => forInBuild s fuel oid o

/-- A rejected defineOwnProperty call: TypeError when `throwOnError` is set,
otherwise `false` with the object and the accessor heap untouched. -/
def dopFails (o : JSObject) (ah : AHeap) (x : SymbolID)
    (dp : DefinePropertyFlags) (w : JSValue) : Prop :=
  defineOwnProperty o ah x dp w ⟨true, false, false⟩ = .error .typeError ∧
  defineOwnProperty o ah x dp w ⟨false, false, false⟩ = .ok (false, o, ah)

/-- The fast-index invariant (spec §3 invariant 5): when
`fastIndexProperties` is set, the hidden class carries no named property
whose spelling parses as a uint32 array index. -/
def fipInv (o : JSObject) : Prop :=
  o.flags.fastIndexProperties = true →
    o.clazz.getHasIndexLikeProperties = false

/-! ### Concrete fixtures used by witnesses and counterexamples -/

/-- An empty hidden class. -/
def emptyClass : HiddenClass := ⟨0, [], 0⟩

/-- Fixture: a plain extensible object with no properties. -/
def w1Obj0 : JSObject := { clazz := emptyClass }

/-- Fixture: a second plain object (distinct class identity). -/
def w1Obj1 : JSObject := { clazz := ⟨1, [], 0⟩ }

/-- Fixture heap: objects 0 and 1, unrelated. -/
def w1Heap : Heap :=
  fun i => if i = 0 then some w1Obj0 else if i = 1 then some w1Obj1 else none

/-- Default flags of a plain data property (enumerable, writable,
configurable). -/
def plainFlags : PropertyFlags :=
  { enumerable := true, writable := true, configurable := true }

/-- Flags of a non-configurable (but writable, enumerable) data property. -/
def ncfgFlags : PropertyFlags := { enumerable := true, writable := true }

/-- The empty accessor-cell heap. -/
def ahEmpty : AHeap := fun _ => {}

/-- Flags of a non-writable, non-configurable (enumerable) data property. -/
def roFlags : PropertyFlags := { enumerable := true }

/-- Fixture: an object whose own property `x` is non-configurable,
non-writable data holding 1. -/
def w2Obj : JSObject :=
  { clazz := ⟨0, [⟨.named "x", 0, roFlags⟩], 1⟩, slots := [.num 1] }

/-- Flags of a configurable accessor property. -/
def accFlags : PropertyFlags :=
  { enumerable := true, configurable := true, accessor := true }

/-- Fixture: an object whose own property `p` is a configurable accessor
stored in cell 0. -/
def w3Obj : JSObject :=
  { clazz := ⟨0, [⟨.named "p", 0, accFlags⟩], 1⟩, slots := [.accessor 0] }

/-- Fixture accessor heap: cell 0 (stored) has getter 10 and setter 20;
cell 1 (supplied) has getter 30 and no setter. -/
def w3AHeap : AHeap :=
  fun j =>
    if j = 0 then ⟨some 10, some 20⟩
    else if j = 1 then ⟨some 30, none⟩ else {}

/-- Fixture: an object owning a configurable data property `a` at slot 0 and
a non-configurable data property `b` at slot 1. -/
def w7Obj : JSObject :=
  { clazz :=
      ⟨0, [⟨.named "a", 0, plainFlags⟩, ⟨.named "b", 1, ncfgFlags⟩], 2⟩,
    slots := [.num 1, .num 2] }

/-- Fixture: an object with (empty) indexed storage and
`fastIndexProperties`, whose prototype is object 1. -/
def w4Obj0 : JSObject :=
  { clazz := ⟨2, [], 0⟩, parent := some 1,
    flags := { indexedStorage := true, fastIndexProperties := true } }

/-- Fixture: a prototype owning a named property whose spelling is "0". -/
def w4Obj1 : JSObject :=
  { clazz := ⟨3, [⟨.idx 0, 0, plainFlags⟩], 1⟩, slots := [.num 7] }

/-- Fixture heap for the hasNamedOrIndexed claim. -/
def w4Heap : Heap :=
  fun i => if i = 0 then some w4Obj0 else if i = 1 then some w4Obj1 else none

/-- Fixture: a plain extensible object under prototype 1, to be sealed. -/
def w6Base : JSObject := { clazz := ⟨4, [], 0⟩, parent := some 1 }

/-- Fixture: a prototype owning an accessor property `s` (cell 2). -/
def w6Proto : JSObject :=
  { clazz := ⟨5, [⟨.named "s", 0, accFlags⟩], 1⟩, slots := [.accessor 2] }

/-- Fixture heap: the sealed object 0 under prototype 1. -/
def w6Heap : Heap :=
  fun i =>
    if i = 0 then some (seal' w6Base)
    else if i = 1 then some w6Proto else none

/-- Fixture accessor heap: cell 2 is a setter-only accessor. -/
def w6AHeap : AHeap := fun j => if j = 2 then ⟨none, some 40⟩ else {}

/-- Fixture: an object with indexed slots 0 and 2 (bound 3), a named
property `b` and an index-like named property `1`. -/
def w5Obj : JSObject :=
  { clazz := ⟨0, [⟨.named "b", 0, plainFlags⟩, ⟨.idx 1, 1, plainFlags⟩], 2⟩,
    slots := [.num 7, .num 8],
    flags := { indexedStorage := true },
    indexedBound := 3,
    indexed := [⟨0, plainFlags, .num 5⟩, ⟨2, plainFlags, .num 6⟩] }

/-- Fixture: a cacheable object with one cacheable prototype and no own
properties. -/
def w8Obj0 : JSObject := { clazz := ⟨0, [], 0⟩, parent := some 1 }

/-- Fixture: the prototype of `w8Obj0`. -/
def w8Obj1 : JSObject := { clazz := ⟨1, [], 0⟩ }

/-- Fixture heap for the for-in cache scenarios. -/
def w8Heap : Heap :=
  fun i => if i = 0 then some w8Obj0 else if i = 1 then some w8Obj1 else none

/-- Fixture runtime state: no for-in cache installed yet. -/
def w8State : ForInState := ⟨w8Heap, fun j => none⟩

/-- Fixture runtime state: the for-in cache of class 0 holds the prototype
prefix and no names. -/
def w8StateCached : ForInState :=
  ⟨w8Heap, fun j => if j = 0 then some [.cls 1, .nul] else none⟩

/-! ### Helper lemmas -/

theorem getD_set_self {α} (l : List α) (i : Nat) (v d : α)
    (h : i < l.length) : (l.set i v).getD i d = v := by
  induction l generalizing i with
  | nil => simp at h
  | cons x xs ih =>
    cases i with
    | zero => rfl
    | succ n =>
      have := ih n (by simpa using h)
      simpa [List.set, List.getD] using this

theorem getD_set_ne {α} (l : List α) (i j : Nat) (v d : α) (h : j ≠ i) :
    (l.set i v).getD j d = l.getD j d := by
  induction l generalizing i j with
  | nil => rfl
  | cons x xs ih =>
    cases i with
    | zero =>
      cases j with
      | zero => exact absurd rfl h
      | succ n => rfl
    | succ m =>
      cases j with
      | zero => rfl
      | succ n =>
        have := ih m n (fun hc => h (by simpa using hc))
        simpa [List.set, List.getD] using this

theorem listSetPad_getD_self (l : List JSValue) (i : Nat) (v : JSValue) :
    (listSetPad l i v).getD i .empty = v := by
  unfold listSetPad
  apply getD_set_self
  rcases Nat.lt_or_ge i l.length with h | h
  · simpa using Nat.lt_of_lt_of_le h (by simp)
  · simp [List.length_append, List.length_replicate]
    omega

theorem find?_filter_ne (l : List ClassEntry) (name : SymbolID) :
    ((l.filter fun e => e.name != name).find? fun e => e.name == name)
      = none := by
  apply List.find?_eq_none.mpr
  intro x hx
  have hpx := List.of_mem_filter hx
  simpa [bne] using hpx

/-! ### Claim C1: setParent -/

/-- C1: for every object `O` and candidate prototype `A`: when `A` is
already `O`'s parent, `setParent` succeeds even if `O` is not extensible;
otherwise a non-extensible `O` yields TypeError; otherwise, when `A`'s
parent chain reaches `O`, `setParent` yields TypeError and the heap (hence
`O`'s parent field) is unchanged; otherwise it succeeds and `O.parent`
becomes `A`. -/
theorem C1_setParent_spec (h : Heap) (fuel oid : Nat) (a : Option Nat)
    (o : JSObject) (hoid : h oid = some o)
    (hterm : chainTerm h fuel a = true) :
    (o.parent = a → setParent h fuel oid a = .ok h) ∧
    (o.parent ≠ a → o.flags.noExtend = true →
      setParent h fuel oid a = .error .typeError) ∧
    (o.parent ≠ a → o.flags.noExtend = false →
      chainContains h fuel a oid = true →
      setParent h fuel oid a = .error .typeError) ∧
    (o.parent ≠ a → o.flags.noExtend = false →
      chainContains h fuel a oid = false →
      setParent h fuel oid a =
        .ok (hUpdate h oid { o with parent := a })) := by
  refine ⟨?_, ?_, ?_, ?_⟩ <;>
    intro h1 <;>
    simp_all [setParent, JSObject.isExtensible, throw, throwThe,
      MonadExceptOf.throw]

/-- Witness for C1 at a concrete heap: reparenting object 0 onto object 1
succeeds and writes the parent field. -/
theorem C1_setParent_witness :
    setParent w1Heap 3 0 (some 1) =
      .ok (hUpdate w1Heap 0 { w1Obj0 with parent := some 1 }) :=
  (C1_setParent_spec w1Heap 3 0 (some 1) w1Obj0 rfl rfl).2.2.2
    (by decide) rfl rfl

/-! ### Claim C7: deleteNamed -/

/-- C7: `deleteNamed` operates on own properties only: a missing property
succeeds with the object unchanged; a present non-configurable property
fails (TypeError under `throwOnError`, false otherwise) with the object
unchanged; otherwise the slot is overwritten with the empty sentinel, the
hidden class's deletion transition is installed, the call returns true, and
the property is no longer an own property. -/
theorem C7_deleteNamed_spec (o : JSObject) (name : SymbolID) (e : ClassEntry) :
    (findProperty o name = none →
      ∀ f, deleteNamed o name f = .ok (true, o)) ∧
    (findProperty o name = some e → e.flags.configurable = false →
      deleteNamed o name ⟨true, false, false⟩ = .error .typeError ∧
      deleteNamed o name ⟨false, false, false⟩ = .ok (false, o)) ∧
    (findProperty o name = some e → e.flags.configurable = true →
      ∀ f,
        deleteNamed o name f =
          .ok (true,
            { setNamedSlotValue o e.slot .empty with
              clazz := o.clazz.deleteProperty name }) ∧
        findProperty
          { setNamedSlotValue o e.slot .empty with
            clazz := o.clazz.deleteProperty name } name = none ∧
        getNamedSlotValue
          { setNamedSlotValue o e.slot .empty with
            clazz := o.clazz.deleteProperty name } e.slot = .empty) := by
  refine ⟨?_, ?_, ?_⟩
  · intro h1 f
    simp [deleteNamed, h1]
  · intro h1 h2
    constructor <;>
      simp [deleteNamed, h1, h2, throw, throwThe, MonadExceptOf.throw]
  · intro h1 h2 f
    refine ⟨?_, ?_, ?_⟩
    · simp [deleteNamed, h1, h2, setNamedSlotValue]
    · show ((o.clazz.entries.filter fun e => e.name != name).find?
        fun e => e.name == name) = none
      exact find?_filter_ne _ _
    · simpa [getNamedSlotValue, setNamedSlotValue] using
        listSetPad_getD_self o.slots e.slot JSValue.empty

/-- Witness for C7 at a concrete object: deleting the configurable `a`
empties its slot and removes it from the class; deleting the
non-configurable `b` fails. -/
theorem C7_deleteNamed_witness :
    deleteNamed w7Obj (.named "a") ⟨false, false, false⟩ =
      .ok (true,
        { setNamedSlotValue w7Obj 0 .empty with
          clazz := w7Obj.clazz.deleteProperty (.named "a") }) ∧
    deleteNamed w7Obj (.named "b") ⟨true, false, false⟩ =
      .error .typeError := by
  constructor
  · exact ((C7_deleteNamed_spec w7Obj (.named "a")
      ⟨.named "a", 0, plainFlags⟩).2.2 (by decide) rfl
      ⟨false, false, false⟩).1
  · exact ((C7_deleteNamed_spec w7Obj (.named "b")
      ⟨.named "b", 1, ncfgFlags⟩).2.1 (by decide) rfl).1

/-! ### Claim C10: preventExtensions / seal / freeze frame -/

theorem find?_entry_map (l : List ClassEntry)
    (g : PropertyFlags → PropertyFlags) (name : SymbolID) :
    ((l.map fun e => { e with flags := g e.flags }).find?
        fun e => e.name == name)
      = (l.find? fun e => e.name == name).map
          fun e => { e with flags := g e.flags } := by
  induction l with
  | nil => rfl
  | cons x xs ih =>
    cases hpx : x.name == name with
    | true => simp [List.find?, hpx]
    | false => simpa [List.find?, hpx] using ih

theorem getNamedData_entry_map (o : JSObject) (c' : HiddenClass)
    (F : ObjectFlags) (g : PropertyFlags → PropertyFlags)
    (hg : ∀ f, (g f).accessor = f.accessor)
    (hc : c'.entries = o.clazz.entries.map fun e => { e with flags := g e.flags })
    (name : SymbolID) (v : JSValue) (h : getNamedData o name = some v) :
    getNamedData { o with clazz := c', flags := F } name = some v := by
  unfold getNamedData findProperty HiddenClass.findProperty at h ⊢
  simp only [hc, find?_entry_map]
  cases hf : o.clazz.entries.find? (fun e => e.name == name) with
  | none => rw [hf] at h; simp at h
  | some e =>
    rw [hf] at h
    simp only [Option.map_some'] at *
    cases ha : e.flags.accessor with
    | true => simp [ha] at h
    | false =>
      simp only [ha, hg, if_false, Bool.false_eq_true] at h ⊢
      simpa [getNamedSlotValue] using h

/-- C10: `preventExtensions`, `seal` and `freeze` modify only the flag byte
and the hidden-class pointer: the parent pointer, the slot storage and the
indexed storage are unchanged, and every own data property reads the same
value (through the data path of `getNamed`) before and after. -/
theorem C10_frame_spec (o : JSObject) (name : SymbolID) (v : JSValue) :
    ((seal' o).parent = o.parent ∧ (seal' o).slots = o.slots ∧
      (seal' o).indexed = o.indexed ∧
      (seal' o).indexedBound = o.indexedBound ∧
      (seal' o).hostNames = o.hostNames) ∧
    ((freeze o).parent = o.parent ∧ (freeze o).slots = o.slots ∧
      (freeze o).indexed = o.indexed ∧
      (freeze o).indexedBound = o.indexedBound ∧
      (freeze o).hostNames = o.hostNames) ∧
    ((preventExtensions o).parent = o.parent ∧
      (preventExtensions o).slots = o.slots ∧
      (preventExtensions o).indexed = o.indexed ∧
      (preventExtensions o).indexedBound = o.indexedBound ∧
      (preventExtensions o).hostNames = o.hostNames) ∧
    (getNamedData o name = some v →
      getNamedData (seal' o) name = some v ∧
      getNamedData (freeze o) name = some v ∧
      getNamedData (preventExtensions o) name = some v) := by
  refine ⟨?_, ?_, ?_, ?_⟩
  · unfold seal'; split <;> simp
  · unfold freeze; split <;> simp
  · simp [preventExtensions]
  · intro h
    refine ⟨?_, ?_, ?_⟩
    · unfold seal'
      split
      · exact h
      · exact getNamedData_entry_map o _ _
          (fun f => { f with configurable := false }) (fun _ => rfl) rfl
          name v h
    · unfold freeze
      split
      · exact h
      · exact getNamedData_entry_map o _ _
          (fun f => { f with configurable := false, writable := false })
          (fun _ => rfl) rfl name v h
    · show getNamedData { o with flags := _ } name = some v
      unfold getNamedData findProperty HiddenClass.findProperty at h ⊢
      simpa [getNamedSlotValue] using h

/-- Witness for C10 at a concrete object: sealing `w7Obj` keeps the value of
its data property `a`. -/
theorem C10_frame_witness :
    getNamedData (seal' w7Obj) (.named "a") = some (.num 1) :=
  ((C10_frame_spec w7Obj (.named "a") (.num 1)).2.2.2 (by decide)).1

/-! ### Claim C2: defineOwnProperty on non-configurable properties -/

theorem cpu_sameValue_done (ah : AHeap) (flags : PropertyFlags)
    (cur new : JSValue) (t : Bool) (hacc : flags.accessor = false)
    (hsv : isSameValue cur new = true) :
    checkPropertyUpdate ah flags { setValue := true } cur new t
      = .ok (.done, flags, ah) := by
  simp [checkPropertyUpdate, DefinePropertyFlags.isEmpty,
    DefinePropertyFlags.isAccessor, hsv]

theorem cpu_reject_value_nonwritable (ah : AHeap) (flags : PropertyFlags)
    (cur new : JSValue) (t : Bool) (hcfg : flags.configurable = false)
    (hw : flags.writable = false) (hacc : flags.accessor = false)
    (hsv : isSameValue cur new = false) :
    checkPropertyUpdate ah flags { setValue := true } cur new t
      = cpuFail ah t := by
  simp [checkPropertyUpdate, DefinePropertyFlags.isEmpty,
    DefinePropertyFlags.isAccessor, hsv, hcfg, hw, hacc]

theorem cpu_reject_configurable (ah : AHeap) (flags : PropertyFlags)
    (dp : DefinePropertyFlags) (cur new : JSValue) (t : Bool)
    (hcfg : flags.configurable = false) (h1 : dp.setConfigurable = true)
    (h2 : dp.configurable = true) :
    checkPropertyUpdate ah flags dp cur new t = cpuFail ah t := by
  simp [checkPropertyUpdate, DefinePropertyFlags.isEmpty,
    DefinePropertyFlags.isAccessor, hcfg, h1, h2]

theorem cpu_reject_enumerable (ah : AHeap) (flags : PropertyFlags)
    (dp : DefinePropertyFlags) (cur new : JSValue) (t : Bool)
    (hcfg : flags.configurable = false) (h1 : dp.setEnumerable = true)
    (h2 : dp.enumerable = !flags.enumerable) :
    checkPropertyUpdate ah flags dp cur new t = cpuFail ah t := by
  have hie : dp.isEmpty = false := by
    unfold DefinePropertyFlags.isEmpty
    simp [h1]
  simp [checkPropertyUpdate, hie, h1, h2, hcfg]

theorem cpu_reject_data_to_accessor (ah : AHeap) (flags : PropertyFlags)
    (dp : DefinePropertyFlags) (cur new : JSValue) (t : Bool)
    (hcfg : flags.configurable = false) (hacc : flags.accessor = false)
    (hdp : dp.isAccessor = true) :
    checkPropertyUpdate ah flags dp cur new t = cpuFail ah t := by
  have hor : (dp.setGetter || dp.setSetter) = true := hdp
  have hie : dp.isEmpty = false := by
    unfold DefinePropertyFlags.isEmpty
    rcases (Bool.or_eq_true _ _).mp hor with h | h <;> simp [h]
  have hguard :
      (dp.setValue || dp.setWritable || dp.setGetter || dp.setSetter)
        = true := by
    rcases (Bool.or_eq_true _ _).mp hor with h | h <;> simp [h]
  simp [checkPropertyUpdate, hie, hdp, hacc, hcfg, hguard]

theorem cpu_reject_accessor_to_data (ah : AHeap) (flags : PropertyFlags)
    (dp : DefinePropertyFlags) (cur new : JSValue) (t : Bool)
    (hcfg : flags.configurable = false) (hacc : flags.accessor = true)
    (hdp : dp.isAccessor = false) (hsv2 : dp.setValue = true)
    (hsv : isSameValue cur new = false) :
    checkPropertyUpdate ah flags dp cur new t = cpuFail ah t := by
  have hie : dp.isEmpty = false := by
    unfold DefinePropertyFlags.isEmpty
    simp [hsv2]
  simp [checkPropertyUpdate, hie, hdp, hacc, hcfg, hsv2, hsv]

theorem cpu_reject_promote_writable (ah : AHeap) (flags : PropertyFlags)
    (dp : DefinePropertyFlags) (cur new : JSValue) (t : Bool)
    (hcfg : flags.configurable = false) (hacc : flags.accessor = false)
    (hw : flags.writable = false) (hdp : dp.isAccessor = false)
    (h1 : dp.setWritable = true) (h2 : dp.writable = true) :
    checkPropertyUpdate ah flags dp cur new t = cpuFail ah t := by
  have hie : dp.isEmpty = false := by
    unfold DefinePropertyFlags.isEmpty
    simp [h1]
  simp [checkPropertyUpdate, hie, hdp, hacc, hcfg, hw, h1, h2]

theorem dop_fails_of_cpuFail (o : JSObject) (ah : AHeap) (x : SymbolID)
    (e : ClassEntry) (dp : DefinePropertyFlags) (w : JSValue)
    (hfind : findProperty o x = some e)
    (hcpu : ∀ t, checkPropertyUpdate ah e.flags dp
      (getNamedSlotValue o e.slot) w t = cpuFail ah t) :
    dopFails o ah x dp w := by
  constructor <;>
    simp [dopFails, defineOwnProperty, hfind, updateOwnProperty, hcpu,
      cpuFail, bind, Except.bind, pure, Except.pure]

theorem dop_done_of_cpu (o : JSObject) (ah : AHeap) (x : SymbolID)
    (e : ClassEntry) (dp : DefinePropertyFlags) (w : JSValue)
    (hfind : findProperty o x = some e)
    (hcpu : ∀ t, checkPropertyUpdate ah e.flags dp
      (getNamedSlotValue o e.slot) w t = .ok (.done, e.flags, ah)) :
    ∀ f, defineOwnProperty o ah x dp w f = .ok (true, o, ah) := by
  intro f
  simp [defineOwnProperty, hfind, updateOwnProperty, hcpu, bind, Except.bind,
    pure, Except.pure]

/-- C2: on an own non-configurable, non-writable data property holding `v`,
`defineOwnProperty` with `{value: w}` fails (TypeError under `throwOnError`,
false otherwise) when `w` is not SameValue to `v`, and succeeds with flags,
slot and accessor heap untouched when it is; moreover, on any
non-configurable current property it rejects setting configurable to true,
changing enumerable, converting between data and accessor (in either
direction, the accessor→data attempt writing a different value), and
promoting non-writable to writable. -/
theorem C2_defineOwnProperty_spec (o : JSObject) (ah : AHeap) (x : SymbolID)
    (e : ClassEntry) (w : JSValue) (hfind : findProperty o x = some e) :
    (e.flags.configurable = false → e.flags.writable = false →
      e.flags.accessor = false →
      (isSameValue (getNamedSlotValue o e.slot) w = false →
        dopFails o ah x { setValue := true } w) ∧
      (isSameValue (getNamedSlotValue o e.slot) w = true →
        ∀ f, defineOwnProperty o ah x { setValue := true } w f
          = .ok (true, o, ah))) ∧
    (∀ dp : DefinePropertyFlags, e.flags.configurable = false →
      dp.setConfigurable = true → dp.configurable = true →
      dopFails o ah x dp w) ∧
    (∀ dp : DefinePropertyFlags, e.flags.configurable = false →
      dp.setEnumerable = true → dp.enumerable = !e.flags.enumerable →
      dopFails o ah x dp w) ∧
    (∀ dp : DefinePropertyFlags, e.flags.configurable = false →
      e.flags.accessor = false → dp.isAccessor = true →
      dopFails o ah x dp w) ∧
    (∀ dp : DefinePropertyFlags, e.flags.configurable = false →
      e.flags.accessor = true → dp.isAccessor = false →
      dp.setValue = true →
      isSameValue (getNamedSlotValue o e.slot) w = false →
      dopFails o ah x dp w) ∧
    (∀ dp : DefinePropertyFlags, e.flags.configurable = false →
      e.flags.accessor = false → e.flags.writable = false →
      dp.isAccessor = false → dp.setWritable = true → dp.writable = true →
      dopFails o ah x dp w) := by
  refine ⟨?_, ?_, ?_, ?_, ?_, ?_⟩
  · intro h1 h2 h3
    constructor
    · intro hsv
      exact dop_fails_of_cpuFail o ah x e _ w hfind fun t =>
        cpu_reject_value_nonwritable ah e.flags _ w t h1 h2 h3 hsv
    · intro hsv
      exact dop_done_of_cpu o ah x e _ w hfind fun t =>
        cpu_sameValue_done ah e.flags _ w t h3 hsv
  · intro dp h1 h2 h3
    exact dop_fails_of_cpuFail o ah x e dp w hfind fun t =>
      cpu_reject_configurable ah e.flags dp _ w t h1 h2 h3
  · intro dp h1 h2 h3
    exact dop_fails_of_cpuFail o ah x e dp w hfind fun t =>
      cpu_reject_enumerable ah e.flags dp _ w t h1 h2 h3
  · intro dp h1 h2 h3
    exact dop_fails_of_cpuFail o ah x e dp w hfind fun t =>
      cpu_reject_data_to_accessor ah e.flags dp _ w t h1 h2 h3
  · intro dp h1 h2 h3 h4 h5
    exact dop_fails_of_cpuFail o ah x e dp w hfind fun t =>
      cpu_reject_accessor_to_data ah e.flags dp _ w t h1 h2 h3 h4 h5
  · intro dp h1 h2 h3 h4 h5 h6
    exact dop_fails_of_cpuFail o ah x e dp w hfind fun t =>
      cpu_reject_promote_writable ah e.flags dp _ w t h1 h2 h3 h4 h5 h6

/-- Witness for C2 at a concrete object: redefining the non-writable `x` to
2 throws (and silently fails), while redefining it to the SameValue 1
succeeds and changes nothing. -/
theorem C2_defineOwnProperty_witness :
    defineOwnProperty w2Obj ahEmpty (.named "x") { setValue := true }
        (.num 2) ⟨true, false, false⟩ = .error .typeError ∧
    defineOwnProperty w2Obj ahEmpty (.named "x") { setValue := true }
        (.num 1) ⟨true, false, false⟩ = .ok (true, w2Obj, ahEmpty) := by
  constructor
  · exact (((C2_defineOwnProperty_spec w2Obj ahEmpty (.named "x")
      ⟨.named "x", 0, roFlags⟩ (.num 2) rfl).1 rfl rfl rfl).1 (by decide)).1
  · exact ((C2_defineOwnProperty_spec w2Obj ahEmpty (.named "x")
      ⟨.named "x", 0, roFlags⟩ (.num 1) rfl).1 rfl rfl rfl).2 (by decide)
      ⟨true, false, false⟩

/-! ### Claim C9: the fast-index invariant -/

theorem hasIdxLike_map_name (l : List ClassEntry) (g : ClassEntry → ClassEntry)
    (hg : ∀ e, (g e).name = e.name) :
    ((l.map g).any fun e => (toArrayIndex e.name).isSome)
      = (l.any fun e => (toArrayIndex e.name).isSome) := by
  induction l with
  | nil => rfl
  | cons a l ih => simp [hg, ih]

theorem hasIdxLike_filter_false (l : List ClassEntry) (q : ClassEntry → Bool)
    (h : (l.any fun e => (toArrayIndex e.name).isSome) = false) :
    ((l.filter q).any fun e => (toArrayIndex e.name).isSome) = false := by
  rw [Bool.eq_false_iff] at h ⊢
  intro hc
  apply h
  rw [List.any_eq_true] at hc ⊢
  obtain ⟨e, he, hp⟩ := hc
  exact ⟨e, List.mem_of_mem_filter he, hp⟩

theorem fip_setSlot (o : JSObject) (s : Nat) (v : JSValue) (hi : fipInv o) :
    fipInv (setNamedSlotValue o s v) := hi

theorem fip_aux_clear (o2 : JSObject) :
    fipInv (if o2.clazz.getHasIndexLikeProperties then
      { o2 with flags := { o2.flags with fastIndexProperties := false } }
    else o2) := by
  split
  · intro hfast
    simp at hfast
  · intro _
    exact Bool.eq_false_iff.mpr ‹¬ _›

theorem fip_addImpl (o : JSObject) (name : SymbolID) (fl : PropertyFlags)
    (v : JSValue) : fipInv (addOwnPropertyImpl o name fl v) := by
  simp only [addOwnPropertyImpl]
  exact fip_aux_clear _

theorem fip_addOwn (o : JSObject) (ah : AHeap) (name : SymbolID)
    (dp : DefinePropertyFlags) (v : JSValue) (f : PropOpFlags) (b : Bool)
    (o' : JSObject) (ah' : AHeap)
    (h : addOwnProperty o ah name dp v f = .ok (b, o', ah'))
    (hi : fipInv o) : fipInv o' := by
  unfold addOwnProperty at h
  split at h
  · split at h <;> simp_all
  · simp only [Except.ok.injEq, Prod.mk.injEq] at h
    obtain ⟨-, h2, -⟩ := h
    exact h2 ▸ fip_addImpl o name _ v

theorem updateOwnProperty_frame (o : JSObject) (ah : AHeap) (x : SymbolID)
    (desc : ClassEntry) (dp : DefinePropertyFlags) (v : JSValue)
    (f : PropOpFlags) (b : Bool) (o' : JSObject) (ah' : AHeap)
    (h : updateOwnProperty o ah x desc dp v f = .ok (b, o', ah')) :
    o'.clazz.getHasIndexLikeProperties = o.clazz.getHasIndexLikeProperties ∧
    o'.flags = o.flags := by
  have hupd : ∀ nf, (o.clazz.updateProperty x nf).getHasIndexLikeProperties
      = o.clazz.getHasIndexLikeProperties := by
    intro nf
    unfold HiddenClass.updateProperty HiddenClass.getHasIndexLikeProperties
    exact hasIdxLike_map_name _ _ (fun e => by split <;> rfl)
  unfold updateOwnProperty at h
  simp only [bind, Except.bind] at h
  repeat' split at h
  all_goals
    first
      | (simp [pure, Except.pure, throw, throwThe,
          MonadExceptOf.throw] at h; done)
      | (simp only [pure, Except.pure, Except.ok.injEq,
          Prod.mk.injEq] at h
         obtain ⟨h1, h2, h3⟩ := h
         subst h2
         simp [setNamedSlotValue, hupd])

theorem fip_update (o : JSObject) (ah : AHeap) (x : SymbolID)
    (desc : ClassEntry) (dp : DefinePropertyFlags) (v : JSValue)
    (f : PropOpFlags) (b : Bool) (o' : JSObject) (ah' : AHeap)
    (h : updateOwnProperty o ah x desc dp v f = .ok (b, o', ah'))
    (hi : fipInv o) : fipInv o' := by
  obtain ⟨h1, h2⟩ := updateOwnProperty_frame o ah x desc dp v f b o' ah' h
  intro hfast
  rw [h1]
  exact hi (h2 ▸ hfast)

theorem fip_define (o : JSObject) (ah : AHeap) (name : SymbolID)
    (dp : DefinePropertyFlags) (v : JSValue) (f : PropOpFlags) (b : Bool)
    (o' : JSObject) (ah' : AHeap)
    (h : defineOwnProperty o ah name dp v f = .ok (b, o', ah'))
    (hi : fipInv o) : fipInv o' := by
  unfold defineOwnProperty at h
  split at h
  · exact fip_update o ah name _ dp v f b o' ah' h hi
  · exact fip_addOwn o ah name dp v f b o' ah' h hi

theorem fip_hUpdate (h : Heap) (j : Nat) (onew : JSObject)
    (hinv : ∀ i oo, h i = some oo → fipInv oo) (hnew : fipInv onew) :
    ∀ i oo, hUpdate h j onew i = some oo → fipInv oo := by
  intro i oo hoo
  unfold hUpdate at hoo
  split at hoo
  · cases hoo; exact hnew
  · exact hinv i oo hoo

theorem hasIdxLike_deleteProperty (c : HiddenClass) (name : SymbolID)
    (h : c.getHasIndexLikeProperties = false) :
    (c.deleteProperty name).getHasIndexLikeProperties = false := by
  unfold HiddenClass.deleteProperty HiddenClass.getHasIndexLikeProperties at *
  exact hasIdxLike_filter_false _ _ h

theorem fip_putAddPath (h : Heap) (ah : AHeap) (oid : Nat) (self : JSObject)
    (name : SymbolID) (v : JSValue) (f : PropOpFlags) (b : Bool) (h' : Heap)
    (hp : putNamedAddPath h ah oid self name v f = .ok (b, h'))
    (hinv : ∀ i oo, h i = some oo → fipInv oo) (hself : fipInv self) :
    ∀ i oo, h' i = some oo → fipInv oo := by
  unfold putNamedAddPath at hp
  split at hp
  · simp [throw, throwThe, MonadExceptOf.throw] at hp
  · split at hp
    · simp at hp
    next b2 o2 ah2 heq =>
      simp only [Except.ok.injEq, Prod.mk.injEq] at hp
      obtain ⟨-, h2⟩ := hp
      subst h2
      exact fip_hUpdate h oid o2 hinv
        (fip_addOwn self ah name _ v f b2 o2 ah2 heq hself)

/-- C9: every modelled operation of the core preserves the invariant that
`fastIndexProperties` implies the class carries no index-like named
property; `addOwnPropertyImpl` and creation from a hidden class establish it
outright (they clear the flag whenever the class reports index-like
properties). -/
theorem C9_fastIndex_invariant :
    (∀ p c, fipInv (createWithClass p c)) ∧
    (∀ o name fl v, fipInv (addOwnPropertyImpl o name fl v)) ∧
    (∀ o ah name dp v f b o' ah',
      addOwnProperty o ah name dp v f = .ok (b, o', ah') →
      fipInv o → fipInv o') ∧
    (∀ o ah name dp v f b o' ah',
      defineOwnProperty o ah name dp v f = .ok (b, o', ah') →
      fipInv o → fipInv o') ∧
    (∀ o name f b o', deleteNamed o name f = .ok (b, o') →
      fipInv o → fipInv o') ∧
    (∀ o, fipInv o → fipInv (seal' o)) ∧
    (∀ o, fipInv o → fipInv (freeze o)) ∧
    (∀ o, fipInv o → fipInv (preventExtensions o)) ∧
    (∀ h fuel oid a h', setParent h fuel oid a = .ok h' →
      (∀ i oo, h i = some oo → fipInv oo) →
      ∀ i oo, h' i = some oo → fipInv oo) ∧
    (∀ h ah fuel oid name v f b h',
      putNamed_RJS h ah fuel oid name v f = .ok (b, h') →
      (∀ i oo, h i = some oo → fipInv oo) →
      ∀ i oo, h' i = some oo → fipInv oo) := by
  have hseal : ∀ o : JSObject, fipInv o → fipInv (seal' o) := by
    intro o hi
    unfold seal'
    split
    · exact hi
    · intro hfast
      show (o.clazz.makeAllNonConfigurable).getHasIndexLikeProperties = false
      unfold HiddenClass.makeAllNonConfigurable
        HiddenClass.getHasIndexLikeProperties
      rw [hasIdxLike_map_name o.clazz.entries
        (fun e => { e with flags := { e.flags with configurable := false } })
        (fun e => rfl)]
      exact hi hfast
  have hfreeze : ∀ o : JSObject, fipInv o → fipInv (freeze o) := by
    intro o hi
    unfold freeze
    split
    · exact hi
    · intro hfast
      show (o.clazz.makeAllReadOnly).getHasIndexLikeProperties = false
      unfold HiddenClass.makeAllReadOnly HiddenClass.getHasIndexLikeProperties
      rw [hasIdxLike_map_name o.clazz.entries
        (fun e =>
          { e with flags :=
              { e.flags with configurable := false, writable := false } })
        (fun e => rfl)]
      exact hi hfast
  refine ⟨?_, fip_addImpl, fip_addOwn, fip_define, ?_, hseal, hfreeze,
    ?_, ?_, ?_⟩
  · intro p c
    simp only [createWithClass]
    exact fip_aux_clear _
  · intro o name f b o' hdel hi
    unfold deleteNamed at hdel
    split at hdel
    · simp only [Except.ok.injEq, Prod.mk.injEq] at hdel
      obtain ⟨-, h2⟩ := hdel
      subst h2
      exact hi
    · split at hdel
      · split at hdel
        · simp [throw, throwThe, MonadExceptOf.throw] at hdel
        · simp only [Except.ok.injEq, Prod.mk.injEq] at hdel
          obtain ⟨-, h2⟩ := hdel
          subst h2
          exact hi
      · simp only [Except.ok.injEq, Prod.mk.injEq] at hdel
        obtain ⟨-, h2⟩ := hdel
        subst h2
        intro hfast
        exact hasIdxLike_deleteProperty o.clazz name (hi hfast)
  · intro o hi
    exact fun hf => hi hf
  · intro h fuel oid a h' hsp hinv
    unfold setParent at hsp
    split at hsp
    · simp [throw, throwThe, MonadExceptOf.throw] at hsp
    next o hoid =>
      split at hsp
      · simp only [Except.ok.injEq] at hsp
        subst hsp
        exact hinv
      · split at hsp
        · simp [throw, throwThe, MonadExceptOf.throw] at hsp
        · split at hsp
          · simp [throw, throwThe, MonadExceptOf.throw] at hsp
          · simp only [Except.ok.injEq] at hsp
            subst hsp
            exact fip_hUpdate h oid _ hinv
              (fun hfast => hinv oid o hoid hfast)
  · intro hp ah fuel oid nm v f b h' hput hinv
    unfold putNamed_RJS at hput
    split at hput
    · simp [throw, throwThe, MonadExceptOf.throw] at hput
    next self hself =>
      have hsf : fipInv self := hinv oid self hself
      split at hput
      next powner desc hdesc =>
        split at hput
        · -- inherited or own accessor: setter call or rejection
          split at hput
          · simp [throw, throwThe, MonadExceptOf.throw] at hput
          next po hpo =>
            repeat' split at hput
            all_goals
              first
                | (simp [throw, throwThe, MonadExceptOf.throw] at hput;
                    done)
                | (simp only [Except.ok.injEq, Prod.mk.injEq] at hput
                   obtain ⟨-, h2⟩ := hput
                   subst h2
                   exact hinv)
        · split at hput
          · -- read-only property
            split at hput
            · simp [throw, throwThe, MonadExceptOf.throw] at hput
            · split at hput
              · simp [throw, throwThe, MonadExceptOf.throw] at hput
              · simp only [Except.ok.injEq, Prod.mk.injEq] at hput
                obtain ⟨-, h2⟩ := hput
                subst h2
                exact hinv
          · split at hput
            · -- the property lives on the receiver
              split at hput
              · simp only [Except.ok.injEq, Prod.mk.injEq] at hput
                obtain ⟨-, h2⟩ := hput
                subst h2
                exact fip_hUpdate hp oid _ hinv (fun hfast => hsf hfast)
              · split at hput
                · simp [throw, throwThe, MonadExceptOf.throw] at hput
                · simp only [Except.ok.injEq, Prod.mk.injEq] at hput
                  obtain ⟨-, h2⟩ := hput
                  subst h2
                  exact hinv
            · exact fip_putAddPath hp ah oid self nm v f b h' hput hinv hsf
      next hdesc =>
        exact fip_putAddPath hp ah oid self nm v f b h' hput hinv hsf

/-- Witness for C9 at concrete objects: sealing preserves the invariant, and
adding an index-like own property re-establishes it (the flag is cleared). -/
theorem C9_fastIndex_witness :
    fipInv (seal' w7Obj) ∧
    fipInv (addOwnPropertyImpl w7Obj (.idx 3) plainFlags (.num 9)) :=
  ⟨C9_fastIndex_invariant.2.2.2.2.2.1 w7Obj (fun _ => rfl),
   C9_fastIndex_invariant.2.1 w7Obj (.idx 3) plainFlags (.num 9)⟩

/-! ### Claim C3: accessor-accessor merge in defineOwnProperty -/

/-- C3 is falsified at a concrete input: updating the accessor property `p`
(stored cell 0) with a supplied accessor cell 1 mentioning only the getter
is accepted, but the slot afterwards holds the *supplied* cell 1 — not the
stored cell 0, which the claim says is mutated in place — and the stored
cell 0 is left unmodified (the supplied cell receives the merge). -/
theorem C3_counterexample :
    defineOwnProperty w3Obj w3AHeap (.named "p") { setGetter := true }
        (.accessor 1) ⟨false, false, false⟩
      = .ok (true, setNamedSlotValue w3Obj 0 (.accessor 1),
          ahSet w3AHeap 1 ⟨some 30, some 20⟩) ∧
    getNamedSlotValue (setNamedSlotValue w3Obj 0 (.accessor 1)) 0
        ≠ .accessor 0 ∧
    (ahSet w3AHeap 1 ⟨some 30, some 20⟩) 0 = ⟨some 10, some 20⟩ :=
  ⟨rfl, by decide, rfl⟩

/-- C3 (amended): for an accepted accessor→accessor update, the mentioned
halves come from the supplied accessor and each unmentioned half inherits
the stored accessor's half; the merge is effected by mutating the
*supplied* accessor cell in place and storing it into the slot, while the
previously stored cell is left unmodified. -/
theorem C3_accessor_merge_amended (o : JSObject) (ah : AHeap) (x : SymbolID)
    (e : ClassEntry) (dp : DefinePropertyFlags) (curId newId : Nat)
    (hfind : findProperty o x = some e)
    (hacc : e.flags.accessor = true) (hcfg : e.flags.configurable = true)
    (hcur : getNamedSlotValue o e.slot = .accessor curId)
    (hdp : dp.isAccessor = true) (hnv : dp.setValue = false)
    (hne : dp.setEnumerable = false) (hnw : dp.setWritable = false)
    (hnc : dp.setConfigurable = false)
    (hdiff : (dp.setGetter = true ∧ (ah newId).getter ≠ (ah curId).getter) ∨
             (dp.setSetter = true ∧ (ah newId).setter ≠ (ah curId).setter))
    (f : PropOpFlags) :
    defineOwnProperty o ah x dp (.accessor newId) f
      = .ok (true, setNamedSlotValue o e.slot (.accessor newId),
          ahSet ah newId
            ⟨(if dp.setGetter then (ah newId).getter else (ah curId).getter),
             (if dp.setSetter then (ah newId).setter
              else (ah curId).setter)⟩) ∧
    (newId ≠ curId →
      ahSet ah newId
          ⟨(if dp.setGetter then (ah newId).getter else (ah curId).getter),
           (if dp.setSetter then (ah newId).setter else (ah curId).setter)⟩
          curId
        = ah curId) := by
  constructor
  · obtain ⟨nm2, slot2, flg⟩ := e
    obtain ⟨fen, fwr, fcf, fac, fis, fho, fsb, fix⟩ := flg
    simp only at hacc hcfg hcur hfind
    subst hacc
    subst hcfg
    have key : checkPropertyUpdate ah
        ⟨fen, fwr, true, true, fis, fho, fsb, fix⟩ dp
        (getNamedSlotValue o slot2) (.accessor newId) f.throwOnError
        = .ok (.needSet, ⟨fen, fwr, true, true, fis, fho, fsb, fix⟩,
            ahSet ah newId
              ⟨(if dp.setGetter then (ah newId).getter
                else (ah curId).getter),
               (if dp.setSetter then (ah newId).setter
                else (ah curId).setter)⟩) := by
      have hie : dp.isEmpty = false := by
        unfold DefinePropertyFlags.isEmpty
        rcases (Bool.or_eq_true _ _).mp hdp with h | h <;> simp [h]
      have hguard :
          (dp.setValue || dp.setWritable || dp.setGetter || dp.setSetter)
            = true := by
        rcases (Bool.or_eq_true _ _).mp hdp with h | h <;> simp [h]
      have hnot :
          ¬((dp.setGetter = false ∨
              (ah curId).getter = (ah newId).getter) ∧
            (dp.setSetter = false ∨
              (ah curId).setter = (ah newId).setter)) := by
        rcases hdiff with ⟨h1, h2⟩ | ⟨h1, h2⟩
        · rintro ⟨hg | hg, -⟩
          · simp [h1] at hg
          · exact h2 hg.symm
        · rintro ⟨-, hs | hs⟩
          · simp [h1] at hs
          · exact h2 hs.symm
      unfold checkPropertyUpdate
      simp [hie, hdp, hnv, hne, hnw, hnc, hguard, hcur, asAccessor,
        hnot, cpuFinish]
      intro h1 h2
      unfold DefinePropertyFlags.isAccessor at hdp
      rw [h1, h2] at hdp
      exact absurd hdp (by decide)
    simp [defineOwnProperty, hfind, updateOwnProperty, key, bind,
      Except.bind, pure, Except.pure, hnv, hdp]
  · intro hne2
    unfold ahSet
    simp [hne2.symm]

/-- Witness for the amended C3 at the concrete fixture: only the getter is
mentioned, so the supplied cell 1 keeps its getter 30, inherits setter 20
from the stored cell 0, and is stored into the slot. -/
theorem C3_accessor_merge_witness :
    defineOwnProperty w3Obj w3AHeap (.named "p") { setGetter := true }
        (.accessor 1) ⟨false, false, false⟩
      = .ok (true, setNamedSlotValue w3Obj 0 (.accessor 1),
          ahSet w3AHeap 1 ⟨some 30, some 20⟩) := by
  have h := (C3_accessor_merge_amended w3Obj w3AHeap (.named "p")
    ⟨.named "p", 0, accFlags⟩ { setGetter := true } 0 1 rfl rfl rfl rfl
    rfl rfl rfl rfl rfl (Or.inl ⟨rfl, by decide⟩) ⟨false, false, false⟩).1
  exact h

/-! ### Claim C4: hasNamedOrIndexed -/

/-- C4 is falsified at a concrete input: object 0 has indexed storage with
`fastIndexProperties` and no own slot 0, while its prototype owns a named
property spelled "0"; `hasNamedOrIndexed` answers false although a named
property with that spelling exists on the prototype chain (and the claimed
if-and-only-if demands true). -/
theorem C4_counterexample :
    hasNamedOrIndexed w4Heap 3 0 (.idx 0) = false ∧
    chainHasNamed w4Heap 4 (some 0) (.idx 0) = true ∧
    ¬(hasNamedOrIndexed w4Heap 3 0 (.idx 0) = true ↔
      (chainHasIndexed w4Heap 4 (some 0) 0 = true ∨
        chainHasNamed w4Heap 4 (some 0) (.idx 0) = true)) := by
  refine ⟨by decide, by decide, ?_⟩
  intro hiff
  have := hiff.mpr (Or.inr (by decide))
  exact absurd this (by decide)

theorem hasNamed_eq_chainHasNamed (h : Heap) :
    ∀ (fuel : Nat) (start : Option Nat) (name : SymbolID),
    chainPlain h fuel start = true →
    (getNamedDescriptorLoop h fuel start name).isSome
      = chainHasNamed h fuel start name := by
  intro fuel
  induction fuel with
  | zero =>
    intro start name _
    cases start <;> rfl
  | succ n ih =>
    intro start name hplain
    cases start with
    | none => rfl
    | some c =>
      unfold getNamedDescriptorLoop chainHasNamed
      cases hc : h c with
      | none => rfl
      | some o =>
        unfold chainPlain at hplain
        rw [hc] at hplain
        simp only [Bool.and_eq_true] at hplain
        obtain ⟨⟨hh, hl⟩, hrest⟩ := hplain
        have hh' : o.flags.hostObject = false := by simpa using hh
        cases hf : findProperty o name with
        | some e => simp [hf]
        | none => simp [hf, hh', ih o.parent name hrest]

/-- C4 (amended): for every object `O` on a plain chain (no host or lazy
objects) and every uint32 index `i`: `hasNamedOrIndexed(O, toSymbol(i))` is
true iff an own indexed slot `i` exists on `O` itself, or — except when `O`
has indexed storage with `fastIndexProperties` set and no own slot `i` — a
named property whose spelling is the decimal form of `i` exists on `O` or
its prototype chain. Indexed slots of prototypes are never consulted. -/
theorem C4_hasNamedOrIndexed_amended (h : Heap) (fuel : Nat) (oid i : Nat)
    (o : JSObject) (hoid : h oid = some o)
    (hplain : chainPlain h (fuel + 1) (some oid) = true) :
    hasNamedOrIndexed h fuel oid (.idx i)
      = (if o.flags.indexedStorage then
          (haveOwnIndexed o i ||
            (!o.flags.fastIndexProperties &&
              chainHasNamed h (fuel + 1) (some oid) (.idx i)))
         else chainHasNamed h (fuel + 1) (some oid) (.idx i)) := by
  have hnamed : hasNamed h fuel oid (.idx i)
      = chainHasNamed h (fuel + 1) (some oid) (.idx i) := by
    unfold hasNamed getNamedDescriptor
    exact hasNamed_eq_chainHasNamed h (fuel + 1) (some oid) _ hplain
  unfold hasNamedOrIndexed
  rw [hoid]
  by_cases h1 : o.flags.indexedStorage = true
  · by_cases h2 : haveOwnIndexed o i = true
    · simp [h1, toArrayIndex, h2]
    · by_cases h3 : o.flags.fastIndexProperties = true
      · simp [h1, toArrayIndex, h2, h3, Bool.eq_false_iff.mpr h2]
      · simp [h1, toArrayIndex, Bool.eq_false_iff.mpr h2,
          Bool.eq_false_iff.mpr h3, hnamed]
  · simp [Bool.eq_false_iff.mpr h1, hnamed]

/-- Witness for the amended C4 at the concrete heap: with
`fastIndexProperties` set and no own slot, the named fallthrough is skipped
and the answer is false. -/
theorem C4_hasNamedOrIndexed_witness :
    hasNamedOrIndexed w4Heap 3 0 (.idx 0)
      = (if w4Obj0.flags.indexedStorage then
          (haveOwnIndexed w4Obj0 0 ||
            (!w4Obj0.flags.fastIndexProperties &&
              chainHasNamed w4Heap 4 (some 0) (.idx 0)))
         else chainHasNamed w4Heap 4 (some 0) (.idx 0)) :=
  C4_hasNamedOrIndexed_amended w4Heap 3 0 0 w4Obj0 rfl (by decide)

/-! ### Claim C6: seal -/

theorem getNamedDescriptorLoop_sound (h : Heap) :
    ∀ (fuel : Nat) (st : Option Nat) (name : SymbolID) (c : Nat)
      (e : ClassEntry),
    getNamedDescriptorLoop h fuel st name = some (c, e) →
    ∃ oc, h c = some oc ∧
      (findProperty oc name = some e ∨
        (oc.flags.hostObject = true ∧ findProperty oc name = none)) := by
  intro fuel
  induction fuel with
  | zero =>
    intro st name c e hh
    cases st <;> simp [getNamedDescriptorLoop] at hh
  | succ n ih =>
    intro st name c e hh
    cases st with
    | none => simp [getNamedDescriptorLoop] at hh
    | some c0 =>
      unfold getNamedDescriptorLoop at hh
      split at hh
      · cases hh
      next o0 hc0 =>
        split at hh
        next e0 hf =>
          simp only [Option.some.injEq, Prod.mk.injEq] at hh
          obtain ⟨hc, he⟩ := hh
          subst hc
          subst he
          exact ⟨o0, hc0, Or.inl hf⟩
        next hf =>
          split at hh
          next hho =>
            simp only [Option.some.injEq, Prod.mk.injEq] at hh
            obtain ⟨hc, -⟩ := hh
            subst hc
            exact ⟨o0, hc0, Or.inr ⟨hho, hf⟩⟩
          next hho =>
            exact ih o0.parent name c e hh

theorem hUpdate_self (h : Heap) (oid : Nat) (so : JSObject)
    (hoid : h oid = some so) : hUpdate h oid so = h := by
  funext i
  unfold hUpdate
  split
  · next hi => rw [hi, hoid]
  · rfl

theorem putNamed_new_prop_fails (h : Heap) (ah : AHeap) (fuel oid : Nat)
    (name : SymbolID) (v : JSValue) (so : JSObject)
    (hoid : h oid = some so) (hne : so.flags.noExtend = true)
    (hhost : so.flags.hostObject = false)
    (hfind : findProperty so name = none)
    (hres : ∀ powner desc,
      getNamedDescriptor h fuel oid name = some (powner, desc) →
      desc.flags.staticBuiltin = false ∧
      (desc.flags.accessor = true → ∀ po, h powner = some po →
        (asAccessor ah (getNamedSlotValue po desc.slot)).setter = none)) :
    putNamed_RJS h ah fuel oid name v ⟨true, false, false⟩
        = .error .typeError ∧
    putNamed_RJS h ah fuel oid name v ⟨false, false, false⟩
        = .ok (false, h) := by
  have haddT : putNamedAddPath h ah oid so name v ⟨true, false, false⟩
      = .error .typeError := by
    unfold putNamedAddPath addOwnProperty JSObject.isExtensible
    simp [hne, throw, throwThe, MonadExceptOf.throw]
  have haddF : putNamedAddPath h ah oid so name v ⟨false, false, false⟩
      = .ok (false, h) := by
    unfold putNamedAddPath addOwnProperty JSObject.isExtensible
    simp [hne, hUpdate_self h oid so hoid]
  constructor <;>
  · unfold putNamed_RJS
    rw [hoid]
    cases hdesc : getNamedDescriptor h fuel oid name with
    | none => simp [haddT, haddF]
    | some pd =>
      obtain ⟨powner, desc⟩ := pd
      obtain ⟨hsb, hset⟩ := hres powner desc hdesc
      obtain ⟨oc, hoc, hcase⟩ :=
        getNamedDescriptorLoop_sound h (fuel + 1) (some oid) name powner
          desc hdesc
      by_cases hacc : desc.flags.accessor = true
      · simp [hoc, hacc, hset hacc oc hoc, throw, throwThe,
          MonadExceptOf.throw]
      · have hpo : powner ≠ oid := by
          intro hpe
          subst hpe
          rw [hoid] at hoc
          cases hoc
          rcases hcase with hc1 | ⟨hc2, -⟩
          · rw [hfind] at hc1; cases hc1
          · rw [hhost] at hc2; cases hc2
        by_cases hw : desc.flags.writable = true
        · simp [hacc, hw, hpo, haddT, haddF]
        · simp [hacc, hw, hsb, throw, throwThe, MonadExceptOf.throw]

/-- C6 (amended): `seal` is idempotent, transitions the hidden class of a
not-yet-sealed object so that every own named property becomes
non-configurable, and sets the `sealed` and `noExtend` flags; afterwards
every own named descriptor reports `configurable = false`, and `putNamed`
of a property not yet on the object fails (TypeError under `throwOnError`,
false otherwise) — except when the name resolves along the prototype chain
to an accessor with a setter (the setter is invoked and the put succeeds),
to a host object, or to a static builtin (which raises TypeError even
without `throwOnError`). -/
theorem C6_seal_amended (o : JSObject) :
    seal' (seal' o) = seal' o ∧
    (o.flags.sealed = false →
      (seal' o).flags.sealed = true ∧ (seal' o).flags.noExtend = true ∧
      (seal' o).clazz = o.clazz.makeAllNonConfigurable) ∧
    (o.flags.sealed = false → ∀ name e,
      findProperty (seal' o) name = some e →
      e.flags.configurable = false) ∧
    (o.flags.sealed = false →
      ∀ (h : Heap) (ah : AHeap) (fuel oid : Nat) (name : SymbolID)
        (v : JSValue),
      h oid = some (seal' o) → o.flags.hostObject = false →
      findProperty (seal' o) name = none →
      (∀ powner desc,
        getNamedDescriptor h fuel oid name = some (powner, desc) →
        desc.flags.staticBuiltin = false ∧
        (desc.flags.accessor = true → ∀ po, h powner = some po →
          (asAccessor ah (getNamedSlotValue po desc.slot)).setter
            = none)) →
      putNamed_RJS h ah fuel oid name v ⟨true, false, false⟩
          = .error .typeError ∧
      putNamed_RJS h ah fuel oid name v ⟨false, false, false⟩
          = .ok (false, h)) := by
  refine ⟨?_, ?_, ?_, ?_⟩
  · by_cases hs : o.flags.sealed = true <;> simp [seal', hs]
  · intro hns
    simp [seal', hns]
  · intro hns name e hfe
    simp only [seal', hns, Bool.false_eq_true, if_false] at hfe
    have hfe2 : (o.clazz.entries.map fun x =>
        { x with flags := { x.flags with configurable := false } }).find?
          (fun x => x.name == name) = some e := hfe
    rw [find?_entry_map o.clazz.entries
      (fun f => { f with configurable := false }) name] at hfe2
    cases hfo : o.clazz.entries.find? (fun x => x.name == name) with
    | none => rw [hfo] at hfe2; cases hfe2
    | some e0 =>
      rw [hfo] at hfe2
      simp only [Option.map_some', Option.some.injEq] at hfe2
      rw [← hfe2]
  · intro hns h ah fuel oid name v hoid hhost hfind hres
    refine putNamed_new_prop_fails h ah fuel oid name v (seal' o) hoid
      ?_ ?_ hfind hres
    · simp [seal', hns]
    · simp [seal', hns, hhost]

/-- C6 as stated is falsified at a concrete input: object 0 is freshly
sealed and does not own `s`, yet `putNamed` of `s` succeeds, because `s`
resolves to an inherited accessor with a setter on the prototype. -/
theorem C6_counterexample :
    (seal' w6Base).flags.sealed = true ∧
    findProperty (seal' w6Base) (.named "s") = none ∧
    putNamed_RJS w6Heap w6AHeap 3 0 (.named "s") (.num 1)
        ⟨true, false, false⟩ = .ok (true, w6Heap) :=
  ⟨rfl, rfl, rfl⟩

/-- Witness for the amended C6 at a concrete heap: a put of a genuinely new
name `q` on the sealed object throws. -/
theorem C6_seal_witness :
    putNamed_RJS w6Heap w6AHeap 3 0 (.named "q") (.num 1)
        ⟨true, false, false⟩ = .error .typeError :=
  ((C6_seal_amended w6Base).2.2.2 rfl w6Heap w6AHeap 3 0 (.named "q")
    (.num 1) rfl rfl rfl
    (fun powner desc hd => by
      rw [show getNamedDescriptor w6Heap 3 0 (.named "q") = none
        from rfl] at hd
      cases hd)).1

/-! ### Claim C5: getOwnPropertyNames ordering -/

theorem getD_append_left {α} (l r : List α) (i : Nat) (d : α)
    (h : i < l.length) : (l ++ r).getD i d = l.getD i d := by
  induction l generalizing i with
  | nil => simp at h
  | cons x xs ih =>
    cases i with
    | zero => rfl
    | succ n =>
      have := ih n (by simpa using h)
      simpa [List.getD] using this

theorem getD_append_right2 {α} (l r : List α) (i : Nat) (d : α)
    (h : l.length ≤ i) : (l ++ r).getD i d = r.getD (i - l.length) d := by
  induction l generalizing i with
  | nil => simp
  | cons x xs ih =>
    cases i with
    | zero => simp at h
    | succ n =>
      have := ih n (by simpa using h)
      simpa [List.getD, Nat.succ_sub_succ] using this

theorem set_append_right2 {α} (l r : List α) (i : Nat) (v : α)
    (h : l.length ≤ i) : (l ++ r).set i v = l ++ r.set (i - l.length) v := by
  induction l generalizing i with
  | nil => simp
  | cons x xs ih =>
    cases i with
    | zero => simp at h
    | succ n =>
      have := ih n (by simpa using h)
      simpa [List.set, Nat.succ_sub_succ] using this

theorem set_last_eq {α} (R : List α) (x : α) (h : R ≠ []) :
    R.set (R.length - 1) x = R.dropLast ++ [x] := by
  induction R with
  | nil => exact absurd rfl h
  | cons y ys ih =>
    by_cases hne : ys = []
    · subst hne; rfl
    · obtain ⟨k, hk⟩ : ∃ k, ys.length = k + 1 := by
        cases ys with
        | nil => exact absurd rfl hne
        | cons a as => exact ⟨as.length, rfl⟩
      have h1 : (y :: ys).length - 1 = k + 1 := by simp [hk]
      rw [h1]
      have h2 : (y :: ys).set (k + 1) x = y :: ys.set k x := rfl
      rw [h2]
      have h3 : ys.set k x = ys.dropLast ++ [x] := by
        have hi := ih hne
        rwa [hk, Nat.add_sub_cancel] at hi
      rw [h3, List.dropLast_cons_of_ne_nil hne]
      rfl

theorem drop_set_eq {α} (l : List α) (i : Nat) (v : α) (h : i < l.length) :
    (l.set i v).drop i = v :: l.drop (i + 1) := by
  induction l generalizing i with
  | nil => simp at h
  | cons x xs ih =>
    cases i with
    | zero => rfl
    | succ n =>
      have := ih n (by simpa using h)
      simpa [List.set] using this

theorem getD_map_num (A : List Nat) (j : Nat) (h : j < A.length) :
    (A.map JSValue.num).getD j .empty = .num (A.getD j 0) := by
  induction A generalizing j with
  | nil => simp at h
  | cons x xs ih =>
    cases j with
    | zero => rfl
    | succ n =>
      have := ih n (by simpa using h)
      simpa [List.getD] using this

theorem getD_mem {α} (l : List α) (i : Nat) (d : α) (h : i < l.length) :
    l.getD i d ∈ l := by
  induction l generalizing i with
  | nil => simp at h
  | cons x xs ih =>
    cases i with
    | zero => simp [List.getD]
    | succ n =>
      have := ih n (by simpa using h)
      simpa [List.getD] using Or.inr this

theorem sorted_take_le (A : List Nat) (hA : A.Sorted (· ≤ ·)) :
    ∀ (n : Nat), n ≤ A.length → ∀ y ∈ A.take n, y ≤ A.getD (n - 1) 0 := by
  induction A with
  | nil => intro n _ y hy; simp at hy
  | cons a A' ih =>
    intro n hn y hy
    cases n with
    | zero => simp at hy
    | succ m =>
      rw [List.take_succ_cons] at hy
      have hhead : ∀ z ∈ A', a ≤ z := by
        intro z hz
        exact (List.pairwise_cons.mp hA).1 z hz
      cases m with
      | zero =>
        simp at hy
        subst hy
        simp [List.getD]
      | succ m2 =>
        have hgd : (a :: A').getD (m2 + 2 - 1) 0 = A'.getD (m2 + 1 - 1) 0 := by
          simp [List.getD]
        rw [hgd]
        have hmem : A'.getD (m2 + 1 - 1) 0 ∈ A' := by
          apply getD_mem
          have := hn
          simp at this
          omega
        rcases List.mem_cons.mp hy with hya | hyA
        · subst hya
          exact hhead _ hmem
        · exact ih (List.pairwise_cons.mp hA).2 (m2 + 1)
            (by simp at hn; omega) y hyA

theorem gopnIndexed_sorted (o : JSObject) (b : Bool) :
    (gopnIndexed o b).Pairwise (· < ·) :=
  (List.pairwise_lt_range _).sublist (List.filter_sublist _)

theorem sorted_nodup_lt (l : List Nat) (hs : l.Sorted (· ≤ ·))
    (hd : l.Nodup) : l.Pairwise (· < ·) :=
  (hs.and hd).imp fun h => lt_of_le_of_ne h.1 h.2

theorem foldl_gopnNamedStep (b : Bool) (hc : Nat) (l : List ClassEntry) :
    ∀ st : GopnState,
    l.foldl (gopnNamedStep b hc) st
      = ⟨st.out ++ entsNamedStrs b l,
         st.indexNames ++ entsIndexNames b l,
         st.dedup ++ (if hc > 0 then entsDedup b l else [])⟩ := by
  induction l with
  | nil =>
    intro st
    simp [entsNamedStrs, entsIndexNames, entsDedup]
  | cons e l ih =>
    intro st
    rw [List.foldl_cons, ih]
    unfold gopnNamedStep entsNamedStrs entsIndexNames entsDedup
    by_cases h1 : isPropertyNamePrimitive e.name = true
    · by_cases h2 : (b && !e.flags.enumerable) = true
      · obtain ⟨hb, hen'⟩ := (Bool.and_eq_true _ _).mp h2
        have hen : e.flags.enumerable = false := by simpa using hen'
        simp [List.filterMap_cons, h1, hb, hen]
      · have hcond : ¬(b = true ∧ e.flags.enumerable = false) := by
          rintro ⟨hb, hen⟩
          exact h2 (by simp [hb, hen])
        by_cases h3 : hc > 0 <;>
          cases h4 : toArrayIndex e.name <;>
            simp [List.filterMap_cons, h1, h2, hcond, h3, h4]
    · have hfalse : isPropertyNamePrimitive e.name = false :=
        Bool.eq_false_iff.mpr h1
      simp [List.filterMap_cons, h1, hfalse]

theorem foldl_gopnHostStep (l : List SymbolID) :
    ∀ st : GopnState,
    l.foldl gopnHostStep st
      = ⟨st.out ++ (hostSurvivors st.dedup l).filterMap strOfNonIdx,
         st.indexNames ++ (hostSurvivors st.dedup l).filterMap toArrayIndex,
         st.dedup ++ hostSurvivors st.dedup l⟩ := by
  induction l with
  | nil => intro st; simp [hostSurvivors]
  | cons id l ih =>
    intro st
    rw [List.foldl_cons, ih]
    by_cases h1 : st.dedup.contains id = true
    · simp [gopnHostStep, hostSurvivors, h1]
    · cases h2 : toArrayIndex id with
      | some i =>
        simp [gopnHostStep, hostSurvivors, h1, h2, List.filterMap_cons, strOfNonIdx]
      | none =>
        simp [gopnHostStep, hostSurvivors, h1, h2, List.filterMap_cons, strOfNonIdx]

theorem take_succ_getD {α} (l : List α) (n : Nat) (d : α) (h : n < l.length) :
    l.take (n + 1) = l.take n ++ [l.getD n d] := by
  induction l generalizing n with
  | nil => simp at h
  | cons x xs ih =>
    cases n with
    | zero => rfl
    | succ m =>
      have h' : m < xs.length := by simpa using h
      simp [ih m h']

theorem set_append_left {α} (l r : List α) (i : Nat) (v : α)
    (h : i < l.length) : (l ++ r).set i v = l.set i v ++ r := by
  induction l generalizing i with
  | nil => simp at h
  | cons x xs ih =>
    cases i with
    | zero => rfl
    | succ m =>
      have h' : m < xs.length := by simpa using h
      simp [ih m h']

theorem mergeRev_perm_aux : ∀ (n : Nat) (A I : List Nat),
    A.length + I.length = n → (mergeRev A I).Perm (A ++ I) := by
  intro n
  induction n with
  | zero =>
    intro A I h
    have hA : A = [] := List.eq_nil_of_length_eq_zero (by omega)
    have hI : I = [] := List.eq_nil_of_length_eq_zero (by omega)
    subst hA; subst hI
    simp [mergeRev]
  | succ m ih =>
    intro A I h
    cases A with
    | nil => simp [mergeRev]
    | cons a ra =>
      cases I with
      | nil =>
        have hrec := ih ra [] (by simp at h ⊢; omega)
        simp only [mergeRev]
        simpa using hrec.cons a
      | cons b rb =>
        by_cases hba : b > a
        · have hrec := ih (a :: ra) rb (by simp at h ⊢; omega)
          simp only [mergeRev, if_pos hba]
          exact (hrec.cons b).trans List.perm_middle.symm
        · have hrec := ih ra (b :: rb) (by simp at h ⊢; omega)
          simp only [mergeRev, if_neg hba]
          simpa using hrec.cons a

theorem mergeRev_perm (A I : List Nat) : (mergeRev A I).Perm (A ++ I) :=
  mergeRev_perm_aux _ A I rfl

theorem mergeRev_sorted_aux : ∀ (n : Nat) (A I : List Nat),
    A.length + I.length = n → A.Sorted (· ≥ ·) → I.Sorted (· ≥ ·) →
    (mergeRev A I).Sorted (· ≥ ·) := by
  intro n
  induction n with
  | zero =>
    intro A I h _ _
    have hA : A = [] := List.eq_nil_of_length_eq_zero (by omega)
    subst hA
    simpa [mergeRev] using (by assumption : I.Sorted (· ≥ ·))
  | succ m ih =>
    intro A I h hA hI
    cases A with
    | nil => simpa [mergeRev] using hI
    | cons a ra =>
      obtain ⟨ha, hra⟩ := List.sorted_cons.mp hA
      cases I with
      | nil =>
        simp only [mergeRev]
        refine List.sorted_cons.mpr ⟨?_, ih ra [] (by simp at h ⊢; omega) hra (by simp)⟩
        intro x hx
        have : x ∈ ra ++ ([] : List Nat) :=
          (mergeRev_perm ra []).mem_iff.mp hx
        exact ha x (by simpa using this)
      | cons b rb =>
        obtain ⟨hb, hrb⟩ := List.sorted_cons.mp hI
        by_cases hba : b > a
        · simp only [mergeRev, if_pos hba]
          refine List.sorted_cons.mpr
            ⟨?_, ih (a :: ra) rb (by simp at h ⊢; omega) hA hrb⟩
          intro x hx
          have hx' : x ∈ (a :: ra) ++ rb :=
            (mergeRev_perm (a :: ra) rb).mem_iff.mp hx
          rcases List.mem_append.mp hx' with hx' | hx'
          · rcases List.mem_cons.mp hx' with hx' | hx'
            · omega
            · have := ha x hx'
              omega
          · exact hb x hx'
        · simp only [mergeRev, if_neg hba]
          refine List.sorted_cons.mpr
            ⟨?_, ih ra (b :: rb) (by simp at h ⊢; omega) hra hI⟩
          intro x hx
          have hx' : x ∈ ra ++ (b :: rb) :=
            (mergeRev_perm ra (b :: rb)).mem_iff.mp hx
          rcases List.mem_append.mp hx' with hx' | hx'
          · exact ha x hx'
          · rcases List.mem_cons.mp hx' with hx' | hx'
            · omega
            · have := hb x hx'
              omega

theorem mergeRev_sorted (A I : List Nat) (hA : A.Sorted (· ≥ ·))
    (hI : I.Sorted (· ≥ ·)) : (mergeRev A I).Sorted (· ≥ ·) :=
  mergeRev_sorted_aux _ A I rfl hA hI

theorem shiftLoop_stop (arr : List JSValue) (l t : Nat) :
    shiftLoop arr l t l = arr := by
  cases l with
  | zero => simp [shiftLoop]
  | succ m => simp [shiftLoop]

theorem shiftLoop_spec (k : Nat) (hk : 1 ≤ k) (N : List JSValue) :
    ∀ (A R T : List JSValue), R.length = k →
    ∃ G : List JSValue, G.length = k ∧
    shiftLoop (A ++ N ++ R ++ T) (A.length + N.length)
      (A.length + N.length + k) A.length
      = A ++ G ++ N ++ T := by
  induction N using List.reverseRecOn with
  | nil =>
    intro A R T hR
    refine ⟨R, hR, ?_⟩
    simpa using shiftLoop_stop (A ++ R ++ T) A.length (A.length + k)
  | append_singleton N0 x ih =>
    intro A R T hR
    have hRne : R ≠ [] := by
      intro hcon
      rw [hcon] at hR
      simp at hR
      omega
    have e1 : A.length + (N0 ++ [x]).length = (A.length + N0.length) + 1 := by
      simp [Nat.add_assoc]
    rw [e1]
    have hcond : ¬(A.length + N0.length + 1 ≤ A.length) := by omega
    simp only [shiftLoop, if_neg hcond]
    have egetD : (A ++ (N0 ++ [x]) ++ R ++ T).getD (A.length + N0.length)
        JSValue.empty = x := by
      have hlen : (A ++ N0).length ≤ A.length + N0.length := by simp
      have : A ++ (N0 ++ [x]) ++ R ++ T
          = (A ++ N0) ++ ([x] ++ (R ++ T)) := by simp
      rw [this, getD_append_right2 _ _ _ _ hlen]
      simp
    have epos : A.length + N0.length + 1 + k - 1 = A.length + N0.length + k := by
      omega
    have eset : (A ++ (N0 ++ [x]) ++ R ++ T).set (A.length + N0.length + k) x
        = A ++ N0 ++ ((x :: R.dropLast) ++ ([x] ++ T)) := by
      have h1 : A ++ (N0 ++ [x]) ++ R ++ T
          = ((A ++ N0 ++ [x]) ++ R) ++ T := by simp
      have h2 : A.length + N0.length + k < ((A ++ N0 ++ [x]) ++ R).length := by
        simp [hR]
        omega
      have h3 : (A ++ N0 ++ [x]).length ≤ A.length + N0.length + k := by
        simp
        omega
      rw [h1, set_append_left _ _ _ _ h2, set_append_right2 _ _ _ _ h3]
      have h4 : A.length + N0.length + k - (A ++ N0 ++ [x]).length
          = R.length - 1 := by
        simp [hR]
        omega
      rw [h4, set_last_eq R x hRne]
      simp
    rw [egetD, epos, eset]
    have hR' : (x :: R.dropLast).length = k := by
      simp [List.length_dropLast, hR]
      omega
    obtain ⟨G, hG, hres⟩ := ih A (x :: R.dropLast) ([x] ++ T) hR'
    refine ⟨G, hG, ?_⟩
    have harg : A ++ N0 ++ ((x :: R.dropLast) ++ ([x] ++ T))
        = A ++ N0 ++ (x :: R.dropLast) ++ ([x] ++ T) := by simp
    rw [harg, hres]
    simp

theorem getD_take_lt {α} (l : List α) (n i : Nat) (d : α) (h : i < n) :
    (l.take n).getD i d = l.getD i d := by
  induction l generalizing n i with
  | nil => simp
  | cons x xs ih =>
    cases n with
    | zero => omega
    | succ m =>
      cases i with
      | zero => rfl
      | succ j => simpa using ih m j (by omega)

theorem mergeLoop_spec (A I : List Nat) :
    ∀ (t ni inl : Nat) (G T : List JSValue),
    t = ni + inl → ni ≤ A.length → inl ≤ I.length → G.length = inl →
    mergeLoop ((A.take ni).map JSValue.num ++ G ++ T) t ni I inl
      = (mergeRev (A.take ni).reverse (I.take inl).reverse).reverse.map
          JSValue.num ++ T := by
  intro t
  induction t with
  | zero =>
    intro ni inl G T ht hni hinl hG
    have h1 : ni = 0 := by omega
    have h2 : inl = 0 := by omega
    subst h1; subst h2
    have h3 : G = [] := List.eq_nil_of_length_eq_zero hG
    subst h3
    simp [mergeLoop, mergeRev]
  | succ m ih =>
    intro ni inl G T ht hni hinl hG
    cases ni with
    | zero =>
      have hinl1 : inl = m + 1 := by omega
      subst hinl1
      have hGne : G ≠ [] := by
        intro hc; rw [hc] at hG; simp at hG
      have hset : (((A.take 0).map JSValue.num ++ G ++ T).set m
          (JSValue.num (I.getD (m + 1 - 1) 0)))
          = (A.take 0).map JSValue.num ++ G.dropLast
              ++ (JSValue.num (I.getD m 0) :: T) := by
        have h1 : (A.take 0).map JSValue.num ++ G ++ T = G ++ T := by simp
        have h2 : m < G.length := by omega
        rw [h1, set_append_left _ _ _ _ h2]
        have h3 : m = G.length - 1 := by omega
        rw [h3, set_last_eq G _ hGne]
        simp
      simp only [mergeLoop]
      rw [if_neg (by omega : ¬(0 : Nat) ≠ 0), hset]
      simp only [Nat.add_sub_cancel]
      rw [ih 0 m G.dropLast _ (by omega) (by omega) (by omega)
        (by simp [hG])]
      have htake : I.take (m + 1) = I.take m ++ [I.getD m 0] :=
        take_succ_getD I m 0 (by omega)
      rw [htake]
      simp [mergeRev]
    | succ s =>
      have hs : s < A.length := by omega
      have hmeq : m = s + inl := by omega
      have hPlen : ((A.take (s + 1)).map JSValue.num).length = s + 1 := by
        simp
        omega
      have hP : ((A.take (s + 1)).map JSValue.num ++ G ++ T).getD s
          JSValue.empty = JSValue.num (A.getD s 0) := by
        have h1 : (A.take (s + 1)).map JSValue.num ++ G ++ T
            = ((A.take (s + 1)).map JSValue.num) ++ (G ++ T) := by simp
        rw [h1, getD_append_left _ _ _ _ (by omega),
          getD_map_num _ _ (by simp; omega), getD_take_lt _ _ _ _ (by omega)]
      have hA1 : A.take (s + 1) = A.take s ++ [A.getD s 0] :=
        take_succ_getD A s 0 hs
      simp only [mergeLoop]
      rw [if_pos (by omega : s + 1 ≠ 0)]
      simp only [Nat.add_sub_cancel, hP, jsNum]
      cases hinl0 : inl with
      | zero =>
        subst hinl0
        have hG0 : G = [] := List.eq_nil_of_length_eq_zero hG
        subst hG0
        have hset : (((A.take (s + 1)).map JSValue.num ++ [] ++ T).set m
            (JSValue.num (A.getD s 0)))
            = (A.take s).map JSValue.num ++ ([] : List JSValue)
                ++ (JSValue.num (A.getD s 0) :: T) := by
          have h1 : (A.take (s + 1)).map JSValue.num ++ [] ++ T
              = (A.take s).map JSValue.num
                  ++ ([JSValue.num (A.getD s 0)] ++ T) := by
            rw [hA1]
            simp
          have h2 : m = ((A.take s).map JSValue.num).length := by
            simp
            omega
          rw [h1, h2, set_append_right2 _ _ _ _ (by omega)]
          simp
        split
        · next hcontra => simp at hcontra
        · rw [hset, ih s 0 [] _ (by omega) (by omega) (by omega) (by simp)]
          rw [hA1]
          simp [mergeRev]
      | succ w =>
        subst hinl0
        have hw : w < I.length := by omega
        have hGne : G ≠ [] := by
          intro hc; rw [hc] at hG; simp at hG
        have htakeI : I.take (w + 1) = I.take w ++ [I.getD w 0] :=
          take_succ_getD I w 0 hw
        by_cases hba : I.getD w 0 > A.getD s 0
        · have hset : (((A.take (s + 1)).map JSValue.num ++ G ++ T).set m
              (JSValue.num (I.getD w 0)))
              = (A.take (s + 1)).map JSValue.num ++ G.dropLast
                  ++ (JSValue.num (I.getD w 0) :: T) := by
            have h1 : (A.take (s + 1)).map JSValue.num ++ G ++ T
                = ((A.take (s + 1)).map JSValue.num ++ G) ++ T := by simp
            have h2 : m < ((A.take (s + 1)).map JSValue.num ++ G).length := by
              simp [hPlen, hG]
              omega
            have h3 : ((A.take (s + 1)).map JSValue.num).length ≤ m := by
              omega
            rw [h1, set_append_left _ _ _ _ h2, set_append_right2 _ _ _ _ h3]
            have h4 : m - ((A.take (s + 1)).map JSValue.num).length
                = G.length - 1 := by
              omega
            rw [h4, set_last_eq G _ hGne]
            simp
          split
          · simp only [Nat.add_sub_cancel]
            rw [hset, ih (s + 1) w G.dropLast _ (by omega) (by omega)
              (by omega) (by simp [hG])]
            rw [htakeI, hA1]
            have hmr : mergeRev ((A.take s ++ [A.getD s 0]).reverse)
                ((I.take w ++ [I.getD w 0]).reverse)
                = I.getD w 0
                    :: mergeRev ((A.take s ++ [A.getD s 0]).reverse)
                      ((I.take w).reverse) := by
              simp only [List.reverse_append, List.reverse_cons,
                List.reverse_nil, List.nil_append, List.singleton_append]
              rw [mergeRev, if_pos hba]
            rw [hmr]
            rw [← hA1]
            simp
          · next hcond =>
            exfalso
            simp only [Nat.add_sub_cancel, Bool.and_eq_true,
              decide_eq_true_eq] at hcond
            exact hcond ⟨by omega, hba⟩
        · have hset : (((A.take (s + 1)).map JSValue.num ++ G ++ T).set m
              (JSValue.num (A.getD s 0)))
              = (A.take s).map JSValue.num
                  ++ (JSValue.num (A.getD s 0) :: G).dropLast
                  ++ (JSValue.num (A.getD s 0) :: T) := by
            have h1 : (A.take (s + 1)).map JSValue.num ++ G ++ T
                = (A.take s).map JSValue.num
                    ++ ((JSValue.num (A.getD s 0) :: G) ++ T) := by
              rw [hA1]
              simp
            have h2 : ((A.take s).map JSValue.num).length ≤ m := by
              simp
              omega
            rw [h1, set_append_right2 _ _ _ _ h2]
            have h3 : (JSValue.num (A.getD s 0) :: G) ++ T
                = ((JSValue.num (A.getD s 0) :: G)) ++ T := rfl
            have h4 : m - ((A.take s).map JSValue.num).length
                = (JSValue.num (A.getD s 0) :: G).length - 1 := by
              simp
              omega
            have h5 : m - ((A.take s).map JSValue.num).length
                < (JSValue.num (A.getD s 0) :: G).length := by
              simp
              omega
            rw [set_append_left _ _ _ _ h5, h4,
              set_last_eq _ _ (by simp : JSValue.num (A.getD s 0) :: G ≠ [])]
            simp
          split
          · next hcond =>
            exfalso
            simp only [Nat.add_sub_cancel, Bool.and_eq_true,
              decide_eq_true_eq] at hcond
            exact hba hcond.2
          · rw [hset, ih s (w + 1) _ _ (by omega) (by omega) (by omega)
              (by simp [hG])]
            rw [htakeI, hA1]
            have hmr : mergeRev ((A.take s ++ [A.getD s 0]).reverse)
                ((I.take w ++ [I.getD w 0]).reverse)
                = A.getD s 0
                    :: mergeRev ((A.take s).reverse)
                      ((I.take w ++ [I.getD w 0]).reverse) := by
              simp only [List.reverse_append, List.reverse_cons,
                List.reverse_nil, List.nil_append, List.singleton_append]
              rw [mergeRev, if_neg hba]
            rw [hmr, ← htakeI]
            simp

theorem gopnSt2_eval (o : JSObject) (b : Bool) :
    (gopnSt2 o b).out
        = entsNamedStrs b o.clazz.entries
            ++ (hostKept o b).filterMap strOfNonIdx
    ∧ (gopnSt2 o b).indexNames
        = entsIndexNames b o.clazz.entries
            ++ (hostKept o b).filterMap toArrayIndex := by
  unfold gopnSt2 hostKept
  cases hH : o.flags.hostObject with
  | false =>
    simp only [hH, Bool.false_eq_true, if_false]
    rw [foldl_gopnNamedStep]
    simp
  | true =>
    simp only [hH, if_true]
    rw [foldl_gopnNamedStep, foldl_gopnHostStep]
    cases hN : o.hostNames with
    | nil => simp [hostSurvivors]
    | cons x xs =>
      have hpos : (x :: xs).length > 0 := by simp
      simp [hpos]

theorem C5_main_aux (o : JSObject) (b : Bool) :
    getOwnPropertyNames o b
      = ((gopnIndexed o b ++ (gopnSt2 o b).indexNames).insertionSort
          (· ≤ ·)).map JSValue.num ++ (gopnSt2 o b).out := by
  have hsortedIR : (gopnIndexed o b).Sorted (· ≤ ·) :=
    (gopnIndexed_sorted o b).imp le_of_lt
  simp only [getOwnPropertyNames]
  by_cases hnil : (gopnSt2 o b).indexNames = []
  · rw [hnil]
    simp only [List.isEmpty_nil, if_true, List.append_nil]
    rw [List.Sorted.insertionSort_eq hsortedIR]
  · rw [if_neg (show ¬((gopnSt2 o b).indexNames.isEmpty = true) by
      simp [hnil])]
    obtain ⟨G, hG, hshift⟩ :=
      shiftLoop_spec ((gopnSt2 o b).indexNames.insertionSort (· ≤ ·)).length
        (by
          rw [(List.perm_insertionSort (· ≤ ·)
            ((gopnSt2 o b).indexNames)).length_eq]
          exact List.length_pos.mpr hnil)
        ((gopnSt2 o b).out)
        ((gopnIndexed o b).map JSValue.num)
        (List.replicate ((gopnSt2 o b).indexNames.insertionSort
          (· ≤ ·)).length JSValue.empty)
        [] (by simp)
    have hshift' : shiftLoop
        ((gopnIndexed o b).map JSValue.num ++ (gopnSt2 o b).out
          ++ List.replicate ((gopnSt2 o b).indexNames.insertionSort
            (· ≤ ·)).length JSValue.empty)
        ((gopnIndexed o b).map JSValue.num ++ (gopnSt2 o b).out).length
        (((gopnIndexed o b).map JSValue.num ++ (gopnSt2 o b).out).length
          + ((gopnSt2 o b).indexNames.insertionSort (· ≤ ·)).length)
        (gopnIndexed o b).length
        = (gopnIndexed o b).map JSValue.num ++ G ++ (gopnSt2 o b).out := by
      simp only [List.append_nil, List.length_append, List.length_map]
        at hshift ⊢
      exact hshift
    rw [hshift']
    have hml := mergeLoop_spec (gopnIndexed o b)
      ((gopnSt2 o b).indexNames.insertionSort (· ≤ ·))
      ((gopnIndexed o b).length
        + ((gopnSt2 o b).indexNames.insertionSort (· ≤ ·)).length)
      (gopnIndexed o b).length
      ((gopnSt2 o b).indexNames.insertionSort (· ≤ ·)).length
      G ((gopnSt2 o b).out) rfl (le_refl _) (le_refl _) hG
    rw [List.take_length, List.take_length] at hml
    rw [hml]
    have huniq : (mergeRev (gopnIndexed o b).reverse
          ((gopnSt2 o b).indexNames.insertionSort (· ≤ ·)).reverse).reverse
        = (gopnIndexed o b ++ (gopnSt2 o b).indexNames).insertionSort
            (· ≤ ·) := by
      have hperm : (mergeRev (gopnIndexed o b).reverse
            ((gopnSt2 o b).indexNames.insertionSort (· ≤ ·)).reverse).reverse.Perm
          ((gopnIndexed o b ++ (gopnSt2 o b).indexNames).insertionSort
            (· ≤ ·)) := by
        refine (List.reverse_perm _).trans ?_
        refine (mergeRev_perm _ _).trans ?_
        refine List.Perm.trans
          ((List.reverse_perm _).append (List.reverse_perm _)) ?_
        refine List.Perm.trans ?_ (List.perm_insertionSort _ _).symm
        exact List.Perm.append_left _ (List.perm_insertionSort _ _)
      have hsorted : (mergeRev (gopnIndexed o b).reverse
            ((gopnSt2 o b).indexNames.insertionSort
              (· ≤ ·)).reverse).reverse.Sorted (· ≤ ·) := by
        have hmr : (mergeRev (gopnIndexed o b).reverse
            ((gopnSt2 o b).indexNames.insertionSort
              (· ≤ ·)).reverse).Sorted (· ≥ ·) := by
          refine mergeRev_sorted _ _ ?_ ?_
          · exact (List.pairwise_reverse).mpr hsortedIR
          · exact (List.pairwise_reverse).mpr
              (List.sorted_insertionSort (· ≤ ·) ((gopnSt2 o b).indexNames))
        exact (List.pairwise_reverse).mpr (hmr.imp fun h => h)
      exact List.eq_of_perm_of_sorted hperm hsorted
        (List.sorted_insertionSort _ _)
    rw [huniq]

/-- C5: for every (initialized) object, `getOwnPropertyNames` returns the
ascending sort of the own indexed slots merged with the index-like names
contributed by the class entries and the deduplicated host names, followed
by the symbol-less non-index named properties in class insertion order,
followed by the non-index host names deduplicated against the class; when
the combined index multiset has no duplicates, the leading index run is
strictly increasing. -/
theorem C5_getOwnPropertyNames_spec (o : JSObject) (b : Bool) :
    getOwnPropertyNames o b
      = ((gopnIndexed o b ++ (entsIndexNames b o.clazz.entries
              ++ (hostKept o b).filterMap toArrayIndex)).insertionSort
            (· ≤ ·)).map JSValue.num
          ++ (entsNamedStrs b o.clazz.entries
              ++ (hostKept o b).filterMap strOfNonIdx)
    ∧ ((gopnIndexed o b ++ (entsIndexNames b o.clazz.entries
            ++ (hostKept o b).filterMap toArrayIndex)).Nodup →
        ((gopnIndexed o b ++ (entsIndexNames b o.clazz.entries
              ++ (hostKept o b).filterMap toArrayIndex)).insertionSort
            (· ≤ ·)).Pairwise (· < ·)) := by
  obtain ⟨hout, hidx⟩ := gopnSt2_eval o b
  constructor
  · rw [C5_main_aux o b, hout, hidx]
  · intro hnd
    refine sorted_nodup_lt _ (List.sorted_insertionSort _ _) ?_
    exact ((List.perm_insertionSort _ _).nodup_iff).mpr hnd

/-- C5, witness: on an object with indexed slots 0 and 2 and an index-like
named property `1`, the enumeration is the merged ascending run `0,1,2`
followed by the named string `b`, and the run is strictly increasing. -/
theorem C5_getOwnPropertyNames_witness :
    getOwnPropertyNames w5Obj false
      = [.num 0, .num 1, .num 2, .str (.named "b")]
    ∧ ((gopnIndexed w5Obj false ++ (entsIndexNames false w5Obj.clazz.entries
          ++ (hostKept w5Obj false).filterMap toArrayIndex)).insertionSort
        (· ≤ ·)).Pairwise (· < ·) := by
  obtain ⟨h1, h2⟩ := C5_getOwnPropertyNames_spec w5Obj false
  constructor
  · rw [h1]
    decide
  · exact h2 (by decide)

/-- C8, counterexample: on a receiver with a cacheable prototype chain and
no properties at all, the freshly built array has `endIndex = 2` while the
receiver's own property count is 0, so the array totals more than 4 times
the own count; yet the cache is installed (`end/4 > ownPropEstimate` with
integer division does not veto it), contradicting the claim that a cache is
installed only when the total is at most 4 times the own count. -/
theorem C8_counterexample :
    ∃ st : ForInState × List CacheEnt × Nat × Nat,
      getForInPropertyNames w8State 5 0 = some st ∧
      st.1.caches w8Obj0.clazz.cid = some st.2.1 ∧
      st.2.2.2 = 2 ∧
      w8Obj0.clazz.getNumProperties = 0 ∧
      ¬(st.2.2.2 ≤ 4 * w8Obj0.clazz.getNumProperties) := by
  refine ⟨(⟨w8Heap, cachesSet (fun j => none) 0 (some [.cls 1, .nul])⟩,
    [.cls 1, .nul], 2, 2), ?_, ?_, ?_, ?_, ?_⟩
  · rfl
  · rfl
  · rfl
  · rfl
  · decide

/-- C8, amended: for a receiver present in the heap, (1) when its class has
a for-in cache whose recorded prototype-class prefix still matches the
chain, `getForInPropertyNames` returns the cached array unchanged; (2) when
the prefix no longer matches, the cache is cleared and the result is a
fresh build; (3) a cold class goes straight to the build; and (4) a build
installs its array as the new cache exactly when the prototype prefix is
nonempty (every prototype cacheable) and `endIndex / 4` does not exceed the
receiver's own property count — an integer-division bound, weaker than
`endIndex ≤ 4 ×` own count. -/
theorem C8_forIn_amended (s : ForInState) (fuel oid : Nat) (o : JSObject)
    (ho : s.heap oid = some o) :
    (∀ arr, s.caches o.clazz.cid = some arr →
      (matchesProtoClasses s.heap fuel oid arr ≠ 0 →
        getForInPropertyNames s fuel oid
          = some (s, arr, matchesProtoClasses s.heap fuel oid arr,
              arr.length)) ∧
      (matchesProtoClasses s.heap fuel oid arr = 0 →
        getForInPropertyNames s fuel oid
          = forInBuild
              { s with caches := cachesSet s.caches o.clazz.cid none }
              fuel oid o)) ∧
    (s.caches o.clazz.cid = none →
      getForInPropertyNames s fuel oid = forInBuild s fuel oid o) ∧
    (∀ (s₀ s' : ForInState) (arr' : List CacheEnt) (bi ei : Nat),
      forInBuild s₀ fuel oid o = some (s', arr', bi, ei) →
      s' = if bi ≠ 0 ∧ ei / 4 ≤ o.clazz.getNumProperties
        then { s₀ with caches := cachesSet s₀.caches o.clazz.cid (some arr') }
        else s₀) := by
  refine ⟨?_, ?_, ?_⟩
  · intro arr hc
    constructor
    · intro hm
      simp only [getForInPropertyNames, ho, hc]
      rw [if_pos hm]
    · intro hm
      simp only [getForInPropertyNames, ho, hc]
      rw [if_neg (by simp [hm])]
  · intro hc
    simp only [getForInPropertyNames, ho, hc]
  · intro s₀ s' arr' bi ei hB
    unfold forInBuild at hB
    cases hsp : setProtoClasses s₀.heap fuel oid with
    | none =>
      simp only [hsp] at hB
      cases hB
    | some protoArr =>
      simp only [hsp] at hB
      cases hap : appendAllPropertyNames s₀.heap fuel (some oid) protoArr
          false protoArr.length with
      | none =>
        simp only [hap] at hB
        cases hB
      | some arr2 =>
        simp only [hap, Option.some.injEq, Prod.mk.injEq] at hB
        obtain ⟨hs', harr', hbi, hei⟩ := hB
        subst harr'
        subst hbi
        subst hei
        rw [← hs']
        by_cases hcond : protoArr.length ≠ 0
            ∧ arr2.length / 4 ≤ o.clazz.getNumProperties
        · have hb : (decide (protoArr.length ≠ 0)
              && !decide (arr2.length / 4 > o.clazz.getNumProperties))
              = true := by
            simp only [Bool.and_eq_true, Bool.not_eq_true', decide_eq_true_eq,
              decide_eq_false_iff_not]
            exact ⟨hcond.1, by omega⟩
          rw [if_pos hb, if_pos hcond]
        · have hb : ¬((decide (protoArr.length ≠ 0)
              && !decide (arr2.length / 4 > o.clazz.getNumProperties))
              = true) := by
            simp only [Bool.and_eq_true, Bool.not_eq_true', decide_eq_true_eq,
              decide_eq_false_iff_not]
            intro hcon
            exact hcond ⟨hcon.1, by omega⟩
          rw [if_neg hb, if_neg hcond]

/-- C8, witness: on the cached fixture state the recorded prefix `[class 1,
null]` still matches the chain, so the cached array is returned unchanged
with `beginIndex = 2`. -/
theorem C8_forIn_witness :
    getForInPropertyNames w8StateCached 5 0
      = some (w8StateCached, [.cls 1, .nul], 2, 2) := by
  have h := ((C8_forIn_amended w8StateCached 5 0 w8Obj0 rfl).1
    [.cls 1, .nul] rfl).1 (by decide)
  rw [h]
  rfl

end VMModel
